import Mathlib

/-! Customer management front end.

A shallow embedding of the record editor (`src/components/CustomerForm.js`) and the record
browser (`src/components/CustomerList.js`).

* JavaScript strings are sequences of UTF-16 code units (`Str`).
* React state is passed explicitly: every handler maps a state to the next state, and the
  calls it makes to the outside (service calls, `alert`, `onSave`) are returned as a trace.
* The outcome of an awaited service call is an argument of the handler that awaits it.
* `String.prototype.toLowerCase` is the Unicode case mapping of the host; the functions that
  use it take it as the argument `toLowerCase`.
-/

namespace CustomerManagement

/-! ## Strings -/

/-- A JavaScript string, as the list of its UTF-16 code units. -/
abbrev Str := List Nat

/-- The code units of a literal whose characters all lie in the basic multilingual plane. -/
def str (s : String) : Str := s.toList.map Char.toNat

/-- The code units that `String.prototype.trim` strips: ECMAScript `WhiteSpace` and
`LineTerminator`. -/
def isWhiteSpace (c : Nat) : Bool :=
  c == 0x0009 || c == 0x000A || c == 0x000B || c == 0x000C || c == 0x000D || c == 0x0020 ||
  c == 0x00A0 || c == 0x1680 || (0x2000 ≤ c && c ≤ 0x200A) || c == 0x2028 || c == 0x2029 ||
  c == 0x202F || c == 0x205F || c == 0x3000 || c == 0xFEFF

/-- `String.prototype.trimStart`. -/
def trimStart (s : Str) : Str := s.dropWhile isWhiteSpace

/-- `String.prototype.trimEnd`. -/
def trimEnd (s : Str) : Str := (s.reverse.dropWhile isWhiteSpace).reverse

/-- `String.prototype.trim`. -/
def trim (s : Str) : Str := trimEnd (trimStart s)

/-- `String.prototype.includes`: `searchString` occurs in `s` at some position. -/
def includes (s searchString : Str) : Bool :=
  s.tails.any (fun t => searchString.isPrefixOf t)

/-- The relational operator `<` on two strings: the first is a proper beginning of the second,
or at the first position where they differ its code unit is the smaller one. -/
def strLt : Str → Str → Bool
  | [], [] => false
  | [], _ :: _ => true
  | _ :: _, [] => false
  | a :: as, b :: bs => if a < b then true else if b < a then false else strLt as bs

/-- The lower-case mapping restricted to the letters `A`..`Z`; on strings of ASCII code units
it is `String.prototype.toLowerCase`. -/
def asciiToLowerCase (s : Str) : Str :=
  s.map (fun c => if 0x41 ≤ c ∧ c ≤ 0x5A then c + 0x20 else c)

/-! ## Records -/

/-- A JavaScript value as a field of an address can hold it: absent (`undefined`), `null`,
a string or a number. -/
inductive JsValue where
  | undefined
  | null
  | string (s : Str)
  | number (n : Int)
  deriving DecidableEq, Repr

/-- The method call `v.trim()`: the trimmed string of a string, and a `TypeError` (`none`) on
every other value. -/
def JsValue.trim : JsValue → Option Str
  | JsValue.string s => some (CustomerManagement.trim s)
  | _ => none

/-- An address of the draft.  A slot made by the editor (`CustomerForm.js`, lines 11-16 and
112-117) has four string fields, the two select fields carrying the option value, the empty
string when nothing is chosen.  An address of a record that the server returned is put into
the draft as it is (line 37), so any of its fields may be absent, `null` or a number.  The
properties that the editor neither reads nor writes (the `city` and `country` objects that the
list shows) are left out. -/
structure Address where
  addressLine1 : JsValue
  addressLine2 : JsValue
  cityId : JsValue
  countryId : JsValue
  deriving DecidableEq, Repr

/-- A customer record as the server returns it.  The list fields may be absent (`none`). -/
structure Customer where
  id : Int
  name : Str
  nicNumber : Str
  dateOfBirth : Str
  mobileNumbers : Option (List Str)
  addresses : Option (List Address)
  familyMemberIds : Option (List Int)
  familyMembers : Option (List Customer)

/-- The draft record `formData` of the editor. -/
structure FormData where
  name : Str
  nicNumber : Str
  dateOfBirth : Str
  mobileNumbers : List Str
  addresses : List Address
  familyMemberIds : List Int
  deriving DecidableEq, Repr

/-- The field-keyed error map `errors`: keys in insertion order with their messages. -/
abbrev Errors := List (String × String)

/-- `Object.keys`. -/
def Errors.keys (o : Errors) : List String := o.map Prod.fst

/-- The assignment `o[k] = v` on an error map: an existing key keeps its place. -/
def Errors.assign (o : Errors) (k v : String) : Errors :=
  if o.any (fun p => p.1 == k) then o.map (fun p => if p.1 == k then (k, v) else p)
  else o ++ [(k, v)]

/-- The state of the `CustomerForm` component (the reference lists of cities and countries,
which only feed the select options of an address, are left out). -/
structure FormState where
  formData : FormData
  loading : Bool
  errors : Errors
  allCustomers : List Customer
  selectedFamilyMembers : List Customer

/-- An empty address slot. -/
def emptyAddress : Address :=
  { addressLine1 := JsValue.string [], addressLine2 := JsValue.string [],
    cityId := JsValue.string [], countryId := JsValue.string [] }

/-- The initial state of the editor (`CustomerForm.js`, lines 6-25). -/
def initialFormState : FormState :=
  { formData :=
      { name := [], nicNumber := [], dateOfBirth := [], mobileNumbers := [[]],
        addresses := [emptyAddress], familyMemberIds := [] }
    loading := false
    errors := []
    allCustomers := []
    selectedFamilyMembers := [] }

/-- What a handler of the editor does to the outside, in the order it does it. -/
inductive Effect where
  | preventDefault
  | updateCustomer (id : Int) (data : FormData)
  | createCustomer (data : FormData)
  | alert (msg : String)
  | consoleError (msg : String)
  | onSave
  deriving DecidableEq, Repr

/-! ## Record editor: validation and submission -/

/-- `validateForm` (`CustomerForm.js`, lines 157-174): builds `newErrors`, stores it in the
state and returns whether it has no key. -/
def validateForm (st : FormState) : FormState × Bool :=
  let newErrors : Errors := []
  let newErrors :=
    if (trim st.formData.name).isEmpty then newErrors.assign "name" "Name is required"
    else newErrors
  let newErrors :=
    if (trim st.formData.nicNumber).isEmpty then
      newErrors.assign "nicNumber" "NIC Number is required"
    else newErrors
  let newErrors :=
    if (trim st.formData.dateOfBirth).isEmpty then
      newErrors.assign "dateOfBirth" "Date of Birth is required"
    else newErrors
  ({ st with errors := newErrors }, newErrors.keys.length == 0)

/-- `Array.prototype.filter` with a callback that can throw: the callback is run on the
entries in order, and a throw ends the filter without a result (`none`). -/
def filterThrowing {α : Type} (p : α → Option Bool) : List α → Option (List α)
  | [] => some []
  | a :: l =>
    match p a with
    | none => none
    | some keep =>
      match filterThrowing p l with
      | none => none
      | some rest => some (if keep then a :: rest else rest)

/-- The callback of the address filter (`CustomerForm.js`, lines 190-192):
`addr.addressLine1.trim() !== '' || addr.cityId !== '' || addr.countryId !== ''`.  The call
of `trim` comes first and throws when `addressLine1` is not a string. -/
def addressKept (addr : Address) : Option Bool :=
  match addr.addressLine1.trim with
  | none => none
  | some line1 =>
    some (line1 != [] || addr.cityId != JsValue.string [] ||
      addr.countryId != JsValue.string [])

/-- The object `cleanedData` of `handleSubmit` (`CustomerForm.js`, lines 187-193), `none`
when building it throws. -/
def cleanedData (formData : FormData) : Option FormData :=
  let mobileNumbers := formData.mobileNumbers.filter (fun mobile => trim mobile != [])
  match filterThrowing addressKept formData.addresses with
  | none => none
  | some addresses =>
    some { formData with mobileNumbers := mobileNumbers, addresses := addresses }

/-- `handleSubmit` (`CustomerForm.js`, lines 176-210).  `customer` is the prop of the
component and `requestOk` tells whether the awaited service call resolves; when it rejects,
the service logs and rethrows (`customerService.js`) and the handler logs and alerts.  The
test `customer && customer.id` holds when a record is supplied and its id is not 0.  When
building `cleanedData` throws, inside `try`, no call is made and the handler logs and
alerts. -/
def handleSubmit (customer : Option Customer) (requestOk : Bool) (st : FormState) :
    FormState × List Effect :=
  let (st, valid) := validateForm st
  if !valid then (st, [Effect.preventDefault])
  else
    let st := { st with loading := true }
    match cleanedData st.formData with
    | none =>
      ({ st with loading := false },
        [Effect.preventDefault, Effect.consoleError "Error saving customer:",
          Effect.alert "Failed to save customer. Please try again."])
    | some data =>
      let editing : Option Int :=
        match customer with
        | some c => if c.id ≠ 0 then some c.id else none
        | none => none
      let trace : List Effect :=
        match editing with
        | some id =>
          if requestOk then
            [Effect.updateCustomer id data, Effect.alert "Customer updated successfully!",
              Effect.onSave]
          else
            [Effect.updateCustomer id data, Effect.consoleError "Error updating customer:",
              Effect.consoleError "Error saving customer:",
              Effect.alert "Failed to save customer. Please try again."]
        | none =>
          if requestOk then
            [Effect.createCustomer data, Effect.alert "Customer created successfully!",
              Effect.onSave]
          else
            [Effect.createCustomer data, Effect.consoleError "Error creating customer:",
              Effect.consoleError "Error saving customer:",
              Effect.alert "Failed to save customer. Please try again."]
      ({ st with loading := false }, Effect.preventDefault :: trace)

/-- Whether an entry of a trace is a call to the customer service. -/
def Effect.isCall : Effect → Bool
  | Effect.updateCustomer _ _ => true
  | Effect.createCustomer _ => true
  | _ => false

/-! ## Record editor: list slots and family members -/

/-- `Array.prototype.filter` with a callback that also reads the index. -/
def filterWithIndex {α : Type} (p : α → Nat → Bool) (l : List α) : List α :=
  (l.enum.filter (fun x => p x.2 x.1)).map Prod.snd

/-- `removeMobileNumber` (`CustomerForm.js`, lines 94-99). -/
def removeMobileNumber (index : Nat) (st : FormState) : FormState :=
  { st with
    formData := { st.formData with
      mobileNumbers := filterWithIndex (fun _ i => i != index) st.formData.mobileNumbers } }

/-- The guard under which a mobile-number row renders its Remove button
(`CustomerForm.js`, line 302). -/
def mobileRemoveAvailable (st : FormState) : Bool :=
  decide (st.formData.mobileNumbers.length > 1)

/-- `fetchAllCustomers` (`CustomerForm.js`, lines 62-69).  `response` is the roster the
service resolves with, `none` when the call rejects (the handler then only logs). -/
def fetchAllCustomers (customer : Option Customer) (response : Option (List Customer))
    (st : FormState) : FormState :=
  match response with
  | some customers =>
    { st with
      allCustomers := customers.filter (fun c => some c.id != customer.map (fun k => k.id)) }
  | none => st

/-- The options of the family-member select (`CustomerForm.js`, lines 406-413). -/
def familyMemberOptions (st : FormState) : List Customer :=
  st.allCustomers.filter (fun c =>
    (st.selectedFamilyMembers.find? (fun f => f.id == c.id)).isNone)

/-- `addFamilyMember` (`CustomerForm.js`, lines 138-147).  The argument is the value of
`parseInt(customerId)`: an integer, or `none` when the text is not a number (`NaN`, which is
equal to no id). -/
def addFamilyMember (customerId : Option Int) (st : FormState) : FormState :=
  match st.allCustomers.find? (fun c => some c.id == customerId) with
  | some member =>
    if (st.selectedFamilyMembers.find? (fun f => f.id == member.id)).isNone then
      { st with
        selectedFamilyMembers := st.selectedFamilyMembers ++ [member]
        formData := { st.formData with
          familyMemberIds := st.formData.familyMemberIds ++ [member.id] } }
    else st
  | none => st

/-- `removeFamilyMember` (`CustomerForm.js`, lines 149-155). -/
def removeFamilyMember (memberId : Int) (st : FormState) : FormState :=
  { st with
    selectedFamilyMembers := st.selectedFamilyMembers.filter (fun m => m.id != memberId)
    formData := { st.formData with
      familyMemberIds := st.formData.familyMemberIds.filter (fun id => id != memberId) } }

/-! ## Record editor: seeding the draft and the slot handlers -/

/-- The effect of the component on its `customer` prop (`CustomerForm.js`, lines 31-46): a
supplied record seeds the draft, a missing or empty list becoming one empty slot. -/
def seedDraft (customer : Option Customer) (st : FormState) : FormState :=
  match customer with
  | some customer =>
    { st with
      formData :=
        { name := customer.name
          nicNumber := customer.nicNumber
          dateOfBirth := customer.dateOfBirth
          mobileNumbers :=
            match customer.mobileNumbers with
            | some mobileNumbers => if mobileNumbers.length > 0 then mobileNumbers else [[]]
            | none => [[]]
          addresses :=
            match customer.addresses with
            | some addresses => if addresses.length > 0 then addresses else [emptyAddress]
            | none => [emptyAddress]
          familyMemberIds := customer.familyMemberIds.getD [] }
      selectedFamilyMembers := customer.familyMembers.getD [] }
  | none => st

/-- The three inputs that `handleChange` serves. -/
inductive FormField where
  | name
  | nicNumber
  | dateOfBirth
  deriving DecidableEq, Repr

/-- The `name` attribute of an input. -/
def FormField.key : FormField → String
  | FormField.name => "name"
  | FormField.nicNumber => "nicNumber"
  | FormField.dateOfBirth => "dateOfBirth"

/-- `handleChange` (`CustomerForm.js`, lines 71-84): stores the value, and blanks the error
message of the field when there is one. -/
def handleChange (field : FormField) (value : Str) (st : FormState) : FormState :=
  let formData :=
    match field with
    | FormField.name => { st.formData with name := value }
    | FormField.nicNumber => { st.formData with nicNumber := value }
    | FormField.dateOfBirth => { st.formData with dateOfBirth := value }
  let errors :=
    if st.errors.any (fun p => p.1 == field.key && p.2 != "") then
      st.errors.assign field.key ""
    else st.errors
  { st with formData := formData, errors := errors }

/-- `addMobileNumber` (`CustomerForm.js`, lines 87-92). -/
def addMobileNumber (st : FormState) : FormState :=
  { st with
    formData := { st.formData with mobileNumbers := st.formData.mobileNumbers ++ [[]] } }

/-- `Array.prototype.map` with a callback that also reads the index. -/
def mapWithIndex {α β : Type} (f : α → Nat → β) (l : List α) : List β :=
  l.enum.map (fun x => f x.2 x.1)

/-- `updateMobileNumber` (`CustomerForm.js`, lines 101-106). -/
def updateMobileNumber (index : Nat) (value : Str) (st : FormState) : FormState :=
  { st with
    formData := { st.formData with
      mobileNumbers :=
        mapWithIndex (fun mobile i => if i = index then value else mobile)
          st.formData.mobileNumbers } }

/-- `addAddress` (`CustomerForm.js`, lines 109-119). -/
def addAddress (st : FormState) : FormState :=
  { st with
    formData := { st.formData with addresses := st.formData.addresses ++ [emptyAddress] } }

/-- `removeAddress` (`CustomerForm.js`, lines 121-126). -/
def removeAddress (index : Nat) (st : FormState) : FormState :=
  { st with
    formData := { st.formData with
      addresses := filterWithIndex (fun _ i => i != index) st.formData.addresses } }

/-- The four fields of an address slot. -/
inductive AddressField where
  | addressLine1
  | addressLine2
  | cityId
  | countryId
  deriving DecidableEq, Repr

/-- The object `{ ...addr, [field]: value }`, where `value` is the string of an input. -/
def Address.assign (addr : Address) (field : AddressField) (value : Str) : Address :=
  match field with
  | AddressField.addressLine1 => { addr with addressLine1 := JsValue.string value }
  | AddressField.addressLine2 => { addr with addressLine2 := JsValue.string value }
  | AddressField.cityId => { addr with cityId := JsValue.string value }
  | AddressField.countryId => { addr with countryId := JsValue.string value }

/-- `updateAddress` (`CustomerForm.js`, lines 128-135). -/
def updateAddress (index : Nat) (field : AddressField) (value : Str) (st : FormState) :
    FormState :=
  { st with
    formData := { st.formData with
      addresses :=
        mapWithIndex (fun addr i => if i = index then addr.assign field value else addr)
          st.formData.addresses } }

/-- The guard under which an address slot renders its Remove button
(`CustomerForm.js`, line 329). -/
def addressRemoveAvailable (st : FormState) : Bool :=
  decide (st.formData.addresses.length > 1)

/-- What the user can do to the draft in the editor, short of submitting it. -/
inductive EditorAction where
  | handleChange (field : FormField) (value : Str)
  | addMobileNumber
  | removeMobileNumber (index : Nat)
  | updateMobileNumber (index : Nat) (value : Str)
  | addAddress
  | removeAddress (index : Nat)
  | updateAddress (index : Nat) (field : AddressField) (value : Str)
  | addFamilyMember (customerId : Option Int)
  | removeFamilyMember (memberId : Int)
  deriving DecidableEq, Repr

/-- Whether the control of an action is rendered in a state: a slot has its input when the
slot exists, and its Remove button when moreover more than one slot remains; a family member
has its Remove button when it is displayed. -/
def EditorAction.available (st : FormState) : EditorAction → Bool
  | EditorAction.handleChange _ _ => true
  | EditorAction.addMobileNumber => true
  | EditorAction.removeMobileNumber index =>
    mobileRemoveAvailable st && decide (index < st.formData.mobileNumbers.length)
  | EditorAction.updateMobileNumber index _ => decide (index < st.formData.mobileNumbers.length)
  | EditorAction.addAddress => true
  | EditorAction.removeAddress index =>
    addressRemoveAvailable st && decide (index < st.formData.addresses.length)
  | EditorAction.updateAddress index _ _ => decide (index < st.formData.addresses.length)
  | EditorAction.addFamilyMember _ => true
  | EditorAction.removeFamilyMember memberId =>
    st.selectedFamilyMembers.any (fun m => m.id == memberId)

/-- The handler behind an action. -/
def EditorAction.handler : EditorAction → FormState → FormState
  | EditorAction.handleChange field value => CustomerManagement.handleChange field value
  | EditorAction.addMobileNumber => CustomerManagement.addMobileNumber
  | EditorAction.removeMobileNumber index => CustomerManagement.removeMobileNumber index
  | EditorAction.updateMobileNumber index value =>
    CustomerManagement.updateMobileNumber index value
  | EditorAction.addAddress => CustomerManagement.addAddress
  | EditorAction.removeAddress index => CustomerManagement.removeAddress index
  | EditorAction.updateAddress index field value =>
    CustomerManagement.updateAddress index field value
  | EditorAction.addFamilyMember customerId => CustomerManagement.addFamilyMember customerId
  | EditorAction.removeFamilyMember memberId => CustomerManagement.removeFamilyMember memberId

/-- One interaction with the editor: an action whose control is not rendered cannot be taken
and leaves the state as it is. -/
def editorStep (st : FormState) (action : EditorAction) : FormState :=
  if action.available st then action.handler st else st

/-- A session in the editor: the draft is seeded from the `customer` prop and the actions
are taken one after the other. -/
def editorSession (customer : Option Customer) (actions : List EditorAction) : FormState :=
  actions.foldl editorStep (seedDraft customer initialFormState)

/-! ## Record browser: filter, sort, pagination -/

/-- The values of the sort select (`CustomerList.js`, lines 191-193). -/
inductive SortKey where
  | name
  | nicNumber
  | dateOfBirth
  deriving DecidableEq, Repr

/-- The two values of `sortOrder`. -/
inductive SortOrder where
  | asc
  | desc
  deriving DecidableEq, Repr

/-- The property read `a[sortBy]`. -/
def Customer.field (a : Customer) : SortKey → Str
  | SortKey.name => a.name
  | SortKey.nicNumber => a.nicNumber
  | SortKey.dateOfBirth => a.dateOfBirth

/-- The filter callback of `filteredCustomers` (`CustomerList.js`, lines 94-100). -/
def matchesSearch (toLowerCase : Str → Str) (searchTerm : Str) (customer : Customer) : Bool :=
  includes (toLowerCase customer.name) (toLowerCase searchTerm) ||
  includes (toLowerCase customer.nicNumber) (toLowerCase searchTerm) ||
  (match customer.mobileNumbers with
   | some mobileNumbers => mobileNumbers.any (fun mobile => includes mobile searchTerm)
   | none => false)

/-- The sort callback of `filteredCustomers` (`CustomerList.js`, lines 101-115). -/
def compareFn (toLowerCase : Str → Str) (sortBy : SortKey) (sortOrder : SortOrder)
    (a b : Customer) : Int :=
  let aValue := a.field sortBy
  let bValue := b.field sortBy
  let aValue := if sortBy = SortKey.name then toLowerCase aValue else aValue
  let bValue := if sortBy = SortKey.name then toLowerCase bValue else bValue
  match sortOrder with
  | SortOrder.asc => if strLt aValue bValue then -1 else if strLt bValue aValue then 1 else 0
  | SortOrder.desc => if strLt bValue aValue then -1 else if strLt aValue bValue then 1 else 0

/-- `Array.prototype.sort` with a comparator: the sort is stable, so it is the insertion sort
that puts `a` before `b` when the comparator does not answer a positive number. -/
def sort {α : Type} (comparator : α → α → Int) (l : List α) : List α :=
  l.insertionSort (fun a b => comparator a b ≤ 0)

/-- `filteredCustomers` (`CustomerList.js`, lines 93-115). -/
def filteredCustomers (toLowerCase : Str → Str) (customers : List Customer) (searchTerm : Str)
    (sortBy : SortKey) (sortOrder : SortOrder) : List Customer :=
  sort (compareFn toLowerCase sortBy sortOrder)
    (customers.filter (matchesSearch toLowerCase searchTerm))

/-- The state `customersPerPage`, never changed after its initial value. -/
def customersPerPage : Nat := 10

/-- `Array.prototype.slice(start, end)`: a negative index counts from the end, and both are
clamped to the length. -/
def slice {α : Type} (l : List α) (start stop : Int) : List α :=
  let len : Int := l.length
  let k := if start < 0 then max (len + start) 0 else min start len
  let final := if stop < 0 then max (len + stop) 0 else min stop len
  (l.drop k.toNat).take (final - k).toNat

/-- `indexOfLastCustomer` (`CustomerList.js`, line 118). -/
def indexOfLastCustomer (currentPage : Int) : Int := currentPage * customersPerPage

/-- `indexOfFirstCustomer` (`CustomerList.js`, line 119). -/
def indexOfFirstCustomer (currentPage : Int) : Int :=
  indexOfLastCustomer currentPage - customersPerPage

/-- `currentCustomers` (`CustomerList.js`, line 120). -/
def currentCustomers {α : Type} (filtered : List α) (currentPage : Int) : List α :=
  slice filtered (indexOfFirstCustomer currentPage) (indexOfLastCustomer currentPage)

/-- `totalPages` (`CustomerList.js`, line 121): `Math.ceil` of the quotient.  An array length
is below `2 ^ 32`, where the double quotient has the same ceiling as the exact one, the
quotient of `length + customersPerPage - 1` rounded down. -/
def totalPages {α : Type} (filtered : List α) : Nat :=
  (filtered.length + customersPerPage - 1) / customersPerPage

/-! ## Record browser: state, navigation, delete, bulk upload -/

/-- The state of the `CustomerList` component (`CustomerList.js`, lines 6-17);
`customersPerPage` is the constant above and `uploadFile` is the name of the chosen file. -/
structure ListState where
  customers : List Customer
  loading : Bool
  error : Option String
  searchTerm : Str
  sortBy : SortKey
  sortOrder : SortOrder
  currentPage : Int
  bulkUploadModal : Bool
  uploadFile : Option String
  uploadProgress : Nat
  isUploading : Bool

/-- The initial state of the browser. -/
def initialListState : ListState :=
  { customers := []
    loading := true
    error := none
    searchTerm := []
    sortBy := SortKey.name
    sortOrder := SortOrder.asc
    currentPage := 1
    bulkUploadModal := false
    uploadFile := none
    uploadProgress := 0
    isUploading := false }

/-- What a handler of the browser does to the outside, in the order it does it. -/
inductive ListEffect where
  | confirm (msg : String)
  | getAllCustomers
  | deleteCustomer (id : Int)
  | uploadBulkCustomers (file : String)
  | alert (msg : String)
  | consoleError (msg : String)
  deriving DecidableEq, Repr

/-- `fetchCustomers` (`CustomerList.js`, lines 23-35).  `response` is the roster the service
resolves with, `none` when the call rejects. -/
def fetchCustomers (response : Option (List Customer)) (st : ListState) : ListState :=
  let st := { st with loading := true }
  let st :=
    match response with
    | some data => { st with customers := data, error := none }
    | none =>
      { st with
        error :=
          some "Failed to connect to server. Make sure Spring Boot is running on port 8081." }
  { st with loading := false }

/-- The search input (`CustomerList.js`, line 180). -/
def setSearchTerm (value : Str) (st : ListState) : ListState :=
  { st with searchTerm := value }

/-- `filteredCustomers` of a browser state. -/
def ListState.filteredCustomers (toLowerCase : Str → Str) (st : ListState) : List Customer :=
  CustomerManagement.filteredCustomers toLowerCase st.customers st.searchTerm st.sortBy
    st.sortOrder

/-- `currentCustomers` of a browser state. -/
def ListState.currentCustomers (toLowerCase : Str → Str) (st : ListState) : List Customer :=
  CustomerManagement.currentCustomers (st.filteredCustomers toLowerCase) st.currentPage

/-- `totalPages` of a browser state. -/
def ListState.totalPages (toLowerCase : Str → Str) (st : ListState) : Nat :=
  CustomerManagement.totalPages (st.filteredCustomers toLowerCase)

/-- `paginate` (`CustomerList.js`, line 123). -/
def paginate (pageNumber : Int) (st : ListState) : ListState :=
  { st with currentPage := pageNumber }

/-- The buttons of the pagination bar (`CustomerList.js`, lines 298-326): Previous, Next,
and the button that `index` of `[...Array(totalPages)]` renders. -/
inductive NavAction where
  | previous
  | next
  | page (index : Nat)
  deriving DecidableEq, Repr

/-- Whether a button can be pressed: the bar is rendered when there is more than one page,
Previous is disabled on page 1, Next is disabled on the last page, and there is a numbered
button for each index below the page count. -/
def NavAction.enabled (totalPages : Nat) (currentPage : Int) : NavAction → Bool
  | NavAction.previous => decide (totalPages > 1) && currentPage != 1
  | NavAction.next => decide (totalPages > 1) && currentPage != (totalPages : Int)
  | NavAction.page index => decide (totalPages > 1) && decide (index < totalPages)

/-- The page number a button hands to `paginate`. -/
def NavAction.target (currentPage : Int) : NavAction → Int
  | NavAction.previous => currentPage - 1
  | NavAction.next => currentPage + 1
  | NavAction.page index => (index : Int) + 1

/-- Pressing a button of the pagination bar; a button that is disabled or not rendered
leaves the state as it is. -/
def navigate (toLowerCase : Str → Str) (st : ListState) (action : NavAction) : ListState :=
  if action.enabled (st.totalPages toLowerCase) st.currentPage then
    paginate (action.target st.currentPage) st
  else st

/-- `handleDelete` (`CustomerList.js`, lines 37-48).  `confirmed` is the answer to
`window.confirm` and `requestOk` tells whether the awaited delete call resolves. -/
def handleDelete (id : Int) (confirmed requestOk : Bool) (st : ListState) :
    ListState × List ListEffect :=
  if confirmed then
    if requestOk then
      ({ st with customers := st.customers.filter (fun customer => customer.id != id) },
        [ListEffect.confirm "Are you sure you want to delete this customer?",
          ListEffect.deleteCustomer id, ListEffect.alert "Customer deleted successfully!"])
    else
      (st,
        [ListEffect.confirm "Are you sure you want to delete this customer?",
          ListEffect.deleteCustomer id, ListEffect.consoleError "Error deleting customer:",
          ListEffect.consoleError "Error deleting customer:",
          ListEffect.alert "Failed to delete customer"])
  else (st, [ListEffect.confirm "Are you sure you want to delete this customer?"])

/-- The updater of the progress timer of `handleBulkUpload` (`CustomerList.js`,
lines 62-68). -/
def progressTick (prev : Nat) : Nat :=
  if prev ≥ 90 then 90 else prev + 10

/-- The state after `ticks` firings of the progress timer. -/
def progressTicks (ticks : Nat) (st : ListState) : ListState :=
  { st with uploadProgress := progressTick^[ticks] st.uploadProgress }

/-- The start of `handleBulkUpload` (`CustomerList.js`, lines 51-57, and 71 for the call):
without a file it alerts and returns; otherwise it marks the upload as running, resets the
indicator and sends the file. -/
def handleBulkUploadStart (st : ListState) : ListState × List ListEffect :=
  match st.uploadFile with
  | none => (st, [ListEffect.alert "Please select a file first"])
  | some file =>
    ({ st with isUploading := true, uploadProgress := 0 },
      [ListEffect.uploadBulkCustomers file])

/-- The end of `handleBulkUpload` (`CustomerList.js`, lines 73-89), run when the awaited
upload call settles: on success the indicator is set to 100, on failure the handler logs and
alerts; in both cases the upload is no longer running. -/
def handleBulkUploadSettle (requestOk : Bool) (st : ListState) : ListState × List ListEffect :=
  if requestOk then
    ({ st with uploadProgress := 100, isUploading := false }, [])
  else
    ({ st with isUploading := false },
      [ListEffect.consoleError "Error uploading bulk customers:",
        ListEffect.consoleError "Error uploading file:",
        ListEffect.alert "Failed to upload file. Please try again."])

/-- `handleBulkUpload` (`CustomerList.js`, lines 50-90) when the progress timer fires `ticks`
times while the upload call is in flight and the call then resolves (`requestOk`) or
rejects. -/
def handleBulkUpload (ticks : Nat) (requestOk : Bool) (st : ListState) :
    ListState × List ListEffect :=
  match st.uploadFile with
  | none => handleBulkUploadStart st
  | some _ =>
    let started := handleBulkUploadStart st
    let settled := handleBulkUploadSettle requestOk (progressTicks ticks started.1)
    (settled.1, started.2 ++ settled.2)

/-- The callback that `handleBulkUpload` schedules after a successful upload
(`CustomerList.js`, lines 76-82): it closes the dialog, resets the upload state and fetches
the roster again (`response`). -/
def bulkUploadCompleted (response : Option (List Customer)) (st : ListState) :
    ListState × List ListEffect :=
  (fetchCustomers response
      { st with bulkUploadModal := false, uploadFile := none, uploadProgress := 0 },
    [ListEffect.getAllCustomers, ListEffect.alert "Bulk upload completed successfully!"])

/-! ## Sample records -/

/-- A record named "Bob" with one mobile number. -/
def sampleBob : Customer :=
  { id := 1, name := str "Bob", nicNumber := str "851234567V",
    dateOfBirth := str "1985-03-02", mobileNumbers := some [str "0771234567"],
    addresses := none, familyMemberIds := none, familyMembers := none }

/-- A record named "alice" without a mobile-number list. -/
def sampleAlice : Customer :=
  { id := 2, name := str "alice", nicNumber := str "901234567V",
    dateOfBirth := str "1990-01-01", mobileNumbers := none,
    addresses := none, familyMemberIds := none, familyMembers := none }

/-- A record named "Carol" whose mobile number is written with letters. -/
def sampleCarol : Customer :=
  { id := 3, name := str "Carol", nicNumber := str "781234567V",
    dateOfBirth := str "1978-11-23", mobileNumbers := some [str "1800FLOWERS"],
    addresses := none, familyMemberIds := none, familyMembers := none }

/-- An editor state while record 3 is edited: the roster holds the two other records, and
`sampleBob` is already selected as a family member. -/
def sampleFormState : FormState :=
  { initialFormState with
    formData := { initialFormState.formData with
      name := str "Carol", nicNumber := str "781234567V", dateOfBirth := str "1978-11-23",
      familyMemberIds := [1] }
    allCustomers := [sampleBob, sampleAlice]
    selectedFamilyMembers := [sampleBob] }

/-- A roster of eleven records: ten named "alice", with the ids 10 to 19, and `sampleBob`. -/
def sampleRoster : List Customer :=
  (List.range 10).map (fun i => { sampleAlice with id := 10 + (i : Int) }) ++ [sampleBob]

/-- The browser after it has fetched `sampleRoster`. -/
def sampleListState : ListState :=
  fetchCustomers (some sampleRoster) initialListState

/-- An address without content as a record of the server carries it: both lines are empty
strings and the properties `cityId` and `countryId` are absent. -/
def blankServerAddress : Address :=
  { addressLine1 := JsValue.string [], addressLine2 := JsValue.string [],
    cityId := JsValue.undefined, countryId := JsValue.undefined }

/-- A record named "Dan" whose only address is `blankServerAddress`. -/
def sampleDan : Customer :=
  { id := 4, name := str "Dan", nicNumber := str "881234567V",
    dateOfBirth := str "1988-07-14", mobileNumbers := some [str "0712345678"],
    addresses := some [blankServerAddress], familyMemberIds := none, familyMembers := none }

/-- A record named "Eve" whose only address has a city and a country and `null` lines. -/
def sampleEve : Customer :=
  { id := 5, name := str "Eve", nicNumber := str "951234567V",
    dateOfBirth := str "1995-05-05", mobileNumbers := some [str "0755555555"],
    addresses := some
      [{ addressLine1 := JsValue.null, addressLine2 := JsValue.null,
         cityId := JsValue.number 2, countryId := JsValue.number 1 }],
    familyMemberIds := none, familyMembers := none }

/-- The record `sampleCarol` under the identifier 0. -/
def sampleZero : Customer :=
  { sampleCarol with id := 0 }

/-! ## Theorems -/

/-! ### Validation and the aborted submission -/

/-- C1: the error map built by `validateForm` has the key `name` exactly when the trimmed
name is empty, `nicNumber` exactly when the trimmed identifier is empty, `dateOfBirth`
exactly when the trimmed birth date is empty, and no other key; `validateForm` returns
`true` exactly when the map is empty. -/
theorem validateForm_errors (st : FormState) :
    ("name" ∈ (validateForm st).1.errors.keys ↔ trim st.formData.name = []) ∧
    ("nicNumber" ∈ (validateForm st).1.errors.keys ↔ trim st.formData.nicNumber = []) ∧
    ("dateOfBirth" ∈ (validateForm st).1.errors.keys ↔ trim st.formData.dateOfBirth = []) ∧
    (∀ k ∈ (validateForm st).1.errors.keys,
      k = "name" ∨ k = "nicNumber" ∨ k = "dateOfBirth") ∧
    ((validateForm st).2 = true ↔ (validateForm st).1.errors = []) := by
  unfold validateForm
  cases h1 : trim st.formData.name <;> cases h2 : trim st.formData.nicNumber <;>
    cases h3 : trim st.formData.dateOfBirth <;>
    simp [Errors.assign, Errors.keys]

/-- The initial draft has all three required fields empty: the map has the three keys and
the answer is `false`. -/
theorem validateForm_errors_witness :
    (validateForm initialFormState).1.errors.keys = ["name", "nicNumber", "dateOfBirth"] ∧
    (validateForm initialFormState).2 = false ∧
    "name" ∈ (validateForm initialFormState).1.errors.keys :=
  ⟨by decide, by decide, (validateForm_errors initialFormState).1.2 (by decide)⟩

/-- C2: when the trimmed name, identifier or birth date of the draft is empty, `handleSubmit`
makes no update call, no create call and no `onSave` call, and the draft is unchanged. -/
theorem handleSubmit_invalid_aborts (customer : Option Customer) (requestOk : Bool)
    (st : FormState)
    (h : trim st.formData.name = [] ∨ trim st.formData.nicNumber = [] ∨
      trim st.formData.dateOfBirth = []) :
    (∀ id data, Effect.updateCustomer id data ∉ (handleSubmit customer requestOk st).2) ∧
    (∀ data, Effect.createCustomer data ∉ (handleSubmit customer requestOk st).2) ∧
    Effect.onSave ∉ (handleSubmit customer requestOk st).2 ∧
    (handleSubmit customer requestOk st).1.formData = st.formData := by
  have hv : (validateForm st).2 = false := by
    unfold validateForm
    rcases h with h | h | h <;>
      cases h1 : trim st.formData.name <;> cases h2 : trim st.formData.nicNumber <;>
      cases h3 : trim st.formData.dateOfBirth <;>
      simp_all [Errors.assign, Errors.keys]
  have hf : (validateForm st).1.formData = st.formData := rfl
  have hs : handleSubmit customer requestOk st = ((validateForm st).1, [Effect.preventDefault]) := by
    simp [handleSubmit, hv]
  rw [hs]
  simp [hf]

/-- A draft with a blank name, submitted while editing record 7. -/
theorem handleSubmit_invalid_aborts_witness :
    (trim (str "  ") = [] ∨ trim (str "901234567V") = [] ∨ trim (str "1990-01-01") = []) ∧
    Effect.onSave ∉ (handleSubmit
      (some { id := 7, name := str "Ann", nicNumber := str "901234567V",
              dateOfBirth := str "1990-01-01", mobileNumbers := none, addresses := none,
              familyMemberIds := none, familyMembers := none })
      true
      { initialFormState with
        formData := { initialFormState.formData with
          name := str "  ", nicNumber := str "901234567V",
          dateOfBirth := str "1990-01-01" } }).2 :=
  ⟨Or.inl (by decide),
    (handleSubmit_invalid_aborts _ true
      { initialFormState with
        formData := { initialFormState.formData with
          name := str "  ", nicNumber := str "901234567V",
          dateOfBirth := str "1990-01-01" } } (Or.inl (by decide))).2.2.1⟩

/-! ### The order on strings and the sort comparator -/

/-- No string is below itself. -/
theorem strLt_irrefl (a : Str) : strLt a a = false := by
  induction a with
  | nil => rfl
  | cons x xs ih => simp [strLt, ih]

/-- Two strings are never below each other. -/
theorem strLt_asymm : ∀ (a b : Str), strLt a b = true → strLt b a = false
  | [], [] => by simp [strLt]
  | [], _ :: _ => by simp [strLt]
  | _ :: _, [] => by simp [strLt]
  | x :: xs, y :: ys => by
    intro h
    simp only [strLt] at h ⊢
    by_cases h1 : x < y
    · have h2 : ¬ y < x := by omega
      simp [h1, h2]
    · by_cases h2 : y < x
      · simp [h1, h2] at h
      · simp only [h1, h2, if_false] at h ⊢
        exact strLt_asymm xs ys h

/-- The order on strings is transitive. -/
theorem strLt_trans : ∀ (a b c : Str), strLt a b = true → strLt b c = true → strLt a c = true
  | [], [], _ => by simp [strLt]
  | [], _ :: _, [] => by simp [strLt]
  | [], _ :: _, _ :: _ => by simp [strLt]
  | _ :: _, [], _ => by simp [strLt]
  | _ :: _, _ :: _, [] => by simp [strLt]
  | x :: xs, y :: ys, z :: zs => by
    intro h1 h2
    simp only [strLt] at h1 h2 ⊢
    by_cases hxy : x < y
    · by_cases hyz : y < z
      · have : x < z := by omega
        simp [this]
      · by_cases hzy : z < y
        · simp [hyz, hzy] at h2
        · have : x < z := by omega
          simp [this]
    · by_cases hyx : y < x
      · simp [hxy, hyx] at h1
      · simp only [hxy, hyx, if_false] at h1
        have hxy' : x = y := by omega
        subst hxy'
        by_cases hxz : x < z
        · simp [hxz]
        · by_cases hzx : z < x
          · simp [hxz, hzx] at h2
          · simp only [hxz, hzx, if_false] at h2 ⊢
            exact strLt_trans xs ys zs h1 h2

/-- Two strings neither of which is below the other are equal. -/
theorem strLt_connex : ∀ (a b : Str), strLt a b = false → strLt b a = false → a = b
  | [], [] => by simp
  | [], _ :: _ => by simp [strLt]
  | _ :: _, [] => by simp [strLt]
  | x :: xs, y :: ys => by
    intro h1 h2
    simp only [strLt] at h1 h2
    by_cases hxy : x < y
    · simp [hxy] at h1
    · by_cases hyx : y < x
      · simp [hyx] at h2
      · simp only [hxy, hyx, if_false] at h1 h2
        have hxy' : x = y := by omega
        rw [hxy', strLt_connex xs ys h1 h2]

/-- The order `¬ b < a` on strings is transitive. -/
theorem strLt_not_trans (a b c : Str) (h1 : strLt b a = false) (h2 : strLt c b = false) :
    strLt c a = false := by
  cases hca : strLt c a with
  | false => rfl
  | true =>
    cases hab : strLt a b with
    | true => rw [strLt_trans c a b hca hab] at h2; exact h2
    | false =>
      have := strLt_connex a b hab h1
      subst this
      rw [hca] at h2; exact h2

/-- In ascending order the comparator answers no positive number exactly when the value of
`b` is not below the value of `a`. -/
theorem compareFn_asc_le (toLowerCase : Str → Str) (sortBy : SortKey) (a b : Customer) :
    compareFn toLowerCase sortBy SortOrder.asc a b ≤ 0 ↔
      strLt (if sortBy = SortKey.name then toLowerCase (b.field sortBy) else b.field sortBy)
        (if sortBy = SortKey.name then toLowerCase (a.field sortBy) else a.field sortBy) = false := by
  simp only [compareFn]
  generalize (if sortBy = SortKey.name then toLowerCase (b.field sortBy) else b.field sortBy) = kb
  generalize (if sortBy = SortKey.name then toLowerCase (a.field sortBy) else a.field sortBy) = ka
  cases hab : strLt ka kb with
  | true => simp [strLt_asymm ka kb hab]
  | false => cases hba : strLt kb ka <;> simp

/-- In descending order the comparator answers no positive number exactly when the value of
`a` is not below the value of `b`. -/
theorem compareFn_desc_le (toLowerCase : Str → Str) (sortBy : SortKey) (a b : Customer) :
    compareFn toLowerCase sortBy SortOrder.desc a b ≤ 0 ↔
      strLt (if sortBy = SortKey.name then toLowerCase (a.field sortBy) else a.field sortBy)
        (if sortBy = SortKey.name then toLowerCase (b.field sortBy) else b.field sortBy) = false := by
  simp only [compareFn]
  generalize (if sortBy = SortKey.name then toLowerCase (b.field sortBy) else b.field sortBy) = kb
  generalize (if sortBy = SortKey.name then toLowerCase (a.field sortBy) else a.field sortBy) = ka
  cases hba : strLt kb ka with
  | true => simp [strLt_asymm kb ka hba]
  | false => cases hab : strLt ka kb <;> simp

/-- Of two records, one is put before the other by the comparator. -/
theorem compareFn_total (toLowerCase : Str → Str) (sortBy : SortKey) (sortOrder : SortOrder)
    (a b : Customer) :
    compareFn toLowerCase sortBy sortOrder a b ≤ 0 ∨
      compareFn toLowerCase sortBy sortOrder b a ≤ 0 := by
  cases sortOrder with
  | asc =>
    rw [compareFn_asc_le, compareFn_asc_le]
    cases h : strLt (if sortBy = SortKey.name then toLowerCase (b.field sortBy)
        else b.field sortBy)
      (if sortBy = SortKey.name then toLowerCase (a.field sortBy) else a.field sortBy) with
    | false => exact Or.inl rfl
    | true => exact Or.inr (strLt_asymm _ _ h)
  | desc =>
    rw [compareFn_desc_le, compareFn_desc_le]
    cases h : strLt (if sortBy = SortKey.name then toLowerCase (a.field sortBy)
        else a.field sortBy)
      (if sortBy = SortKey.name then toLowerCase (b.field sortBy) else b.field sortBy) with
    | false => exact Or.inl rfl
    | true => exact Or.inr (strLt_asymm _ _ h)

/-- The order of the comparator is transitive. -/
theorem compareFn_trans (toLowerCase : Str → Str) (sortBy : SortKey) (sortOrder : SortOrder)
    (a b c : Customer) (h1 : compareFn toLowerCase sortBy sortOrder a b ≤ 0)
    (h2 : compareFn toLowerCase sortBy sortOrder b c ≤ 0) :
    compareFn toLowerCase sortBy sortOrder a c ≤ 0 := by
  cases sortOrder with
  | asc =>
    rw [compareFn_asc_le] at h1 h2 ⊢
    exact strLt_not_trans _ _ _ h1 h2
  | desc =>
    rw [compareFn_desc_le] at h1 h2 ⊢
    exact strLt_not_trans _ _ _ h2 h1

/-- Sorting permutes the list. -/
theorem sort_perm {α : Type} (comparator : α → α → Int) (l : List α) :
    (sort comparator l).Perm l :=
  List.perm_insertionSort _ l

/-- A list sorted with the comparator is ordered by it. -/
theorem sort_compareFn_pairwise (toLowerCase : Str → Str) (sortBy : SortKey)
    (sortOrder : SortOrder) (l : List Customer) :
    (sort (compareFn toLowerCase sortBy sortOrder) l).Pairwise
      (fun a b => compareFn toLowerCase sortBy sortOrder a b ≤ 0) :=
  @List.sorted_insertionSort _ (fun a b => compareFn toLowerCase sortBy sortOrder a b ≤ 0) _
    ⟨compareFn_total toLowerCase sortBy sortOrder⟩
    ⟨compareFn_trans toLowerCase sortBy sortOrder⟩ l

/-- The empty search string occurs in every string. -/
theorem includes_nil (s : Str) : includes s [] = true := by
  cases s <;> simp [includes, List.isPrefixOf]

/-- C4: sorted by name in ascending order, the displayed list is a permutation of the records
that pass the filter, and the lower-cased name of a record is never above that of a record
after it, in particular that of the next one; two records named "Bob" and "alice" come out
as "alice", "Bob". -/
theorem filteredCustomers_name_asc (toLowerCase : Str → Str) :
    (∀ (customers : List Customer) (searchTerm : Str),
      (filteredCustomers toLowerCase customers searchTerm SortKey.name SortOrder.asc).Perm
        (customers.filter (matchesSearch toLowerCase searchTerm)) ∧
      (filteredCustomers toLowerCase customers searchTerm SortKey.name SortOrder.asc).Pairwise
        (fun a b => strLt (toLowerCase b.name) (toLowerCase a.name) = false) ∧
      (filteredCustomers toLowerCase customers searchTerm SortKey.name SortOrder.asc).Chain'
        (fun a b => strLt (toLowerCase b.name) (toLowerCase a.name) = false)) ∧
    (toLowerCase [] = [] → toLowerCase (str "Bob") = str "bob" →
      toLowerCase (str "alice") = str "alice" →
      ∀ a b : Customer, a.name = str "Bob" → b.name = str "alice" →
        filteredCustomers toLowerCase [a, b] [] SortKey.name SortOrder.asc = [b, a]) := by
  have hs : ∀ (customers : List Customer) (searchTerm : Str),
      (filteredCustomers toLowerCase customers searchTerm SortKey.name SortOrder.asc).Pairwise
        (fun a b => strLt (toLowerCase b.name) (toLowerCase a.name) = false) := by
    intro customers searchTerm
    refine (sort_compareFn_pairwise toLowerCase SortKey.name SortOrder.asc _).imp ?_
    intro a b h
    rw [compareFn_asc_le] at h
    simpa [Customer.field] using h
  refine ⟨fun customers searchTerm => ⟨sort_perm _ _, hs customers searchTerm,
    (hs customers searchTerm).chain'⟩, ?_⟩
  intro h0 hB ha a b hna hnb
  have hcmp : ¬ compareFn toLowerCase SortKey.name SortOrder.asc a b ≤ 0 := by
    rw [compareFn_asc_le]
    simp only [Customer.field, if_true, hna, hnb, hB, ha]
    decide
  simp [filteredCustomers, matchesSearch, h0, includes_nil, sort, hcmp]

/-- The records `sampleBob` and `sampleAlice`, with the ASCII lower-case mapping. -/
theorem filteredCustomers_name_asc_witness :
    (filteredCustomers asciiToLowerCase [sampleBob, sampleAlice] [] SortKey.name
      SortOrder.asc).map (fun c => c.name) = [str "alice", str "Bob"] := by
  rw [(filteredCustomers_name_asc asciiToLowerCase).2 rfl (by decide) (by decide)
    sampleBob sampleAlice rfl rfl]
  rfl

/-- C5: when the lower-cased names of the roster are pairwise distinct, the list sorted by
name in descending order is the reverse of the list sorted by name in ascending order. -/
theorem filteredCustomers_name_desc_reverse (toLowerCase : Str → Str)
    (customers : List Customer) (searchTerm : Str)
    (h : customers.Pairwise (fun a b => toLowerCase a.name ≠ toLowerCase b.name)) :
    filteredCustomers toLowerCase customers searchTerm SortKey.name SortOrder.desc =
      (filteredCustomers toLowerCase customers searchTerm SortKey.name SortOrder.asc).reverse := by
  have hne : ∀ l : List Customer, l.Perm (customers.filter (matchesSearch toLowerCase searchTerm)) →
      l.Pairwise (fun a b => toLowerCase a.name ≠ toLowerCase b.name) := by
    intro l hl
    exact (hl.pairwise_iff (fun hab => Ne.symm hab)).2 (h.filter _)
  have hasc : (filteredCustomers toLowerCase customers searchTerm SortKey.name
      SortOrder.asc).Pairwise (fun a b => strLt (toLowerCase a.name) (toLowerCase b.name) = true) := by
    refine ((sort_compareFn_pairwise toLowerCase SortKey.name SortOrder.asc _).and
      (hne _ (sort_perm _ _))).imp ?_
    intro a b hab
    rw [compareFn_asc_le] at hab
    simp only [Customer.field, if_true] at hab
    cases hlt : strLt (toLowerCase a.name) (toLowerCase b.name) with
    | true => rfl
    | false => exact absurd (strLt_connex _ _ hlt hab.1) hab.2
  have hdesc : (filteredCustomers toLowerCase customers searchTerm SortKey.name
      SortOrder.desc).reverse.Pairwise
        (fun a b => strLt (toLowerCase a.name) (toLowerCase b.name) = true) := by
    rw [List.pairwise_reverse]
    refine ((sort_compareFn_pairwise toLowerCase SortKey.name SortOrder.desc _).and
      (hne _ (sort_perm _ _))).imp ?_
    intro a b hab
    rw [compareFn_desc_le] at hab
    simp only [Customer.field, if_true] at hab
    cases hlt : strLt (toLowerCase b.name) (toLowerCase a.name) with
    | true => rfl
    | false => exact absurd (strLt_connex _ _ hab.1 hlt) hab.2
  have hperm : (filteredCustomers toLowerCase customers searchTerm SortKey.name
      SortOrder.desc).reverse.Perm
      (filteredCustomers toLowerCase customers searchTerm SortKey.name SortOrder.asc) :=
    (List.reverse_perm _).trans ((sort_perm _ _).trans (sort_perm _ _).symm)
  have heq := @List.eq_of_perm_of_sorted _
    (fun a b : Customer => strLt (toLowerCase a.name) (toLowerCase b.name) = true)
    ⟨fun a b hab hba => by rw [strLt_asymm _ _ hab] at hba; exact absurd hba (by simp)⟩
    _ _ hperm hdesc hasc
  rw [← heq, List.reverse_reverse]

/-- Three records with distinct lower-cased names, all matching the search term "V". -/
theorem filteredCustomers_name_desc_reverse_witness :
    [sampleBob, sampleAlice, sampleCarol].Pairwise
      (fun a b => asciiToLowerCase a.name ≠ asciiToLowerCase b.name) ∧
    (filteredCustomers asciiToLowerCase [sampleBob, sampleAlice, sampleCarol] (str "V")
      SortKey.name SortOrder.desc).map (fun c => c.id) = [3, 1, 2] := by
  have hp : [sampleBob, sampleAlice, sampleCarol].Pairwise
      (fun a b => asciiToLowerCase a.name ≠ asciiToLowerCase b.name) := by
    refine List.Pairwise.cons ?_ (List.Pairwise.cons ?_ (List.Pairwise.cons ?_ List.Pairwise.nil))
    · intro b hb
      simp only [List.mem_cons, List.mem_singleton, List.not_mem_nil, or_false] at hb
      rcases hb with rfl | rfl <;> decide
    · intro b hb
      simp only [List.mem_singleton] at hb
      subst hb
      decide
    · intro b hb
      simp at hb
  refine ⟨hp, ?_⟩
  rw [filteredCustomers_name_desc_reverse asciiToLowerCase _ (str "V") hp]
  rfl

/-! ### Search -/

/-- C3, the code at the failing input: the search term "flowers" occurs, ignoring case, in
the mobile number "1800FLOWERS" of `sampleCarol`, and it occurs neither in her name nor in her
identifier; the filter leaves the record out, and keeps it for the term "FLOWERS". -/
theorem filteredCustomers_mobile_case_sensitive :
    sampleCarol.mobileNumbers = some [str "1800FLOWERS"] ∧
    includes (asciiToLowerCase (str "1800FLOWERS")) (asciiToLowerCase (str "flowers")) = true ∧
    filteredCustomers asciiToLowerCase [sampleCarol] (str "flowers") SortKey.name
      SortOrder.asc = [] ∧
    filteredCustomers asciiToLowerCase [sampleCarol] (str "FLOWERS") SortKey.name
      SortOrder.asc = [sampleCarol] :=
  ⟨rfl, by decide, rfl, rfl⟩

/-! ### Pagination -/

/-- The slice that a page number from 1 on cuts out of the filtered list. -/
theorem slice_page {α : Type} (l : List α) (p : Nat) (hp : 1 ≤ p) :
    slice l (indexOfFirstCustomer p) (indexOfLastCustomer p) =
      (l.take (min (p * 10) l.length)).drop ((p - 1) * 10) := by
  obtain ⟨q, rfl⟩ : ∃ q, p = q + 1 := ⟨p - 1, by omega⟩
  have h1 : indexOfLastCustomer ((q + 1 : Nat) : Int) = ((q * 10 + 10 : Nat) : Int) := by
    simp only [indexOfLastCustomer, customersPerPage]; push_cast; ring
  have h2 : indexOfFirstCustomer ((q + 1 : Nat) : Int) = ((q * 10 : Nat) : Int) := by
    simp only [indexOfFirstCustomer, h1, customersPerPage]; push_cast; ring
  rw [h1, h2]
  have hk : (min ((q * 10 : Nat) : Int) (l.length : Int)).toNat = min (q * 10) l.length := by
    omega
  have hf : (min ((q * 10 + 10 : Nat) : Int) (l.length : Int) -
      min ((q * 10 : Nat) : Int) (l.length : Int)).toNat =
      min (q * 10 + 10) l.length - min (q * 10) l.length := by
    omega
  have hn1 : ¬ (((q * 10 : Nat) : Int) < 0) := by omega
  have hn2 : ¬ (((q * 10 + 10 : Nat) : Int) < 0) := by omega
  simp only [slice, hn1, hn2, if_false, hk, hf]
  rw [List.drop_take]
  have e1 : (q + 1) * 10 = q * 10 + 10 := by ring
  have e2 : (q + 1 - 1) * 10 = q * 10 := by simp
  rw [e1, e2]
  by_cases hq : q * 10 ≤ l.length
  · rw [Nat.min_eq_left hq]
  · have hd1 : l.drop (min (q * 10) l.length) = [] := by
      apply List.drop_eq_nil_of_le; omega
    have hd2 : l.drop (q * 10) = [] := by
      apply List.drop_eq_nil_of_le; omega
    rw [hd1, hd2]; simp

/-- The page count is the ceiling of the exact quotient. -/
theorem totalPages_eq_ceil {α : Type} (l : List α) :
    totalPages l = ⌈(l.length : ℚ) / 10⌉₊ := by
  simp only [totalPages, customersPerPage]
  apply le_antisymm
  · have h := Nat.le_ceil ((l.length : ℚ) / 10)
    rw [div_le_iff₀ (by norm_num : (0 : ℚ) < 10)] at h
    have h2 : l.length ≤ ⌈(l.length : ℚ) / 10⌉₊ * 10 := by exact_mod_cast h
    omega
  · rw [Nat.ceil_le, div_le_iff₀ (by norm_num : (0 : ℚ) < 10)]
    have h2 : l.length ≤ (l.length + 10 - 1) / 10 * 10 := by omega
    exact_mod_cast h2

/-- C6: the page count is the ceiling of a tenth of the number of filtered records, and a
page `p` between 1 and the page count shows the records at positions `(p-1)*10+1` to
`min (p*10) n` of the filtered list, in order: of the first `min (p*10) n` records, all but
the first `(p-1)*10`.  A list of 25 records has 3 pages, and page 3 shows records 21 to 25. -/
theorem pagination_pages {α : Type} (filtered : List α) :
    totalPages filtered = ⌈(filtered.length : ℚ) / 10⌉₊ ∧
    (∀ p : Nat, 1 ≤ p → p ≤ totalPages filtered →
      currentCustomers filtered p =
        (filtered.take (min (p * 10) filtered.length)).drop ((p - 1) * 10) ∧
      (currentCustomers filtered p).length = min (p * 10) filtered.length - (p - 1) * 10 ∧
      ∀ k, k < min (p * 10) filtered.length - (p - 1) * 10 →
        (currentCustomers filtered p)[k]? = filtered[(p - 1) * 10 + k]?) ∧
    (filtered.length = 25 →
      totalPages filtered = 3 ∧ currentCustomers filtered 3 = filtered.drop 20) := by
  refine ⟨totalPages_eq_ceil filtered, ?_, ?_⟩
  · intro p hp _
    have hs : currentCustomers filtered p =
        (filtered.take (min (p * 10) filtered.length)).drop ((p - 1) * 10) :=
      slice_page filtered p hp
    refine ⟨hs, ?_, ?_⟩
    · rw [hs, List.length_drop, List.length_take]; omega
    · intro k hk
      rw [hs, List.getElem?_drop, List.getElem?_take_of_lt (by omega)]
  · intro h25
    refine ⟨by simp [totalPages, customersPerPage, h25], ?_⟩
    have hs := slice_page filtered 3 (by omega)
    rw [h25] at hs
    have ht : filtered.take 25 = filtered := List.take_of_length_le (by omega)
    simpa [currentCustomers, ht] using hs

/-- The records numbered 1 to 25: three pages, the third showing 21 to 25. -/
theorem pagination_pages_witness :
    (1 ≤ 3 ∧ 3 ≤ totalPages (List.range' 1 25)) ∧
    (List.range' 1 25).length = 25 ∧
    totalPages (List.range' 1 25) = 3 ∧
    currentCustomers (List.range' 1 25) 3 = [21, 22, 23, 24, 25] ∧
    currentCustomers (List.range' 1 25) (3 : Nat) =
      ((List.range' 1 25).take (min (3 * 10) (List.range' 1 25).length)).drop ((3 - 1) * 10) :=
  ⟨by decide, by decide,
    ((pagination_pages (List.range' 1 25)).2.2 (by decide)).1,
    ((pagination_pages (List.range' 1 25)).2.2 (by decide)).2.trans (by decide),
    ((pagination_pages (List.range' 1 25)).2.1 3 (by decide) (by decide)).1⟩

/-! ### Mobile-number slots -/

/-- Dropping the entry numbered `n + i` from a list numbered from `n` on. -/
theorem enumFrom_filter_ne {α : Type} (l : List α) :
    ∀ (n i : Nat), ((l.enumFrom n).filter (fun x => x.1 != n + i)).map Prod.snd =
      l.take i ++ l.drop (i + 1) := by
  induction l with
  | nil => intro n i; simp
  | cons a t ih =>
    intro n i
    cases i with
    | zero =>
      have ht : ∀ (m : Nat), m > n →
          ((t.enumFrom m).filter (fun x => x.1 != n + 0)).map Prod.snd = t := by
        intro m hm
        have hall : ∀ x ∈ t.enumFrom m, (fun x : Nat × α => x.1 != n + 0) x = true := by
          intro x hx
          have := List.le_fst_of_mem_enumFrom hx
          simp only [bne_iff_ne, ne_eq]
          omega
        rw [List.filter_eq_self.2 hall]
        simp [List.enumFrom_map_snd]
      simp only [List.enumFrom_cons, List.filter_cons]
      simp
      simpa using ht (n + 1) (by omega)
    | succ j =>
      have h := ih (n + 1) j
      have e : n + 1 + j = n + (j + 1) := by omega
      rw [e] at h
      simp only [List.enumFrom_cons, List.filter_cons]
      simp
      simpa using h

/-- Filtering by `index !== i` keeps what is before and what is after position `i`. -/
theorem filterWithIndex_ne {α : Type} (l : List α) (i : Nat) :
    filterWithIndex (fun _ j => j != i) l = l.take i ++ l.drop (i + 1) := by
  have h := enumFrom_filter_ne l 0 i
  simpa [filterWithIndex, List.enum] using h

/-- C7: a mobile-number list of length 1 shows no Remove button; on a list of length
`n > 1` the button is shown, and `removeMobileNumber i` with `i < n` leaves the entries before
position `i` followed by the entries after it, `n - 1` entries in all, and changes no other
field of the draft. -/
theorem removeMobileNumber_spec (st : FormState) :
    (st.formData.mobileNumbers.length = 1 → mobileRemoveAvailable st = false) ∧
    (∀ i : Nat, 1 < st.formData.mobileNumbers.length → i < st.formData.mobileNumbers.length →
      mobileRemoveAvailable st = true ∧
      (removeMobileNumber i st).formData.mobileNumbers =
        st.formData.mobileNumbers.take i ++ st.formData.mobileNumbers.drop (i + 1) ∧
      (removeMobileNumber i st).formData.mobileNumbers.length =
        st.formData.mobileNumbers.length - 1 ∧
      (removeMobileNumber i st).formData =
        { st.formData with mobileNumbers := (removeMobileNumber i st).formData.mobileNumbers }) := by
  refine ⟨fun h => by simp [mobileRemoveAvailable, h], ?_⟩
  intro i hn hi
  have hr : (removeMobileNumber i st).formData.mobileNumbers =
      st.formData.mobileNumbers.take i ++ st.formData.mobileNumbers.drop (i + 1) :=
    filterWithIndex_ne _ i
  refine ⟨by simp [mobileRemoveAvailable, hn], hr, ?_, rfl⟩
  rw [hr, List.length_append, List.length_take, List.length_drop]
  omega

/-- Removing the middle one of three mobile numbers. -/
theorem removeMobileNumber_spec_witness :
    (1 < 3 ∧ 1 < 3) ∧
    (removeMobileNumber 1
      { initialFormState with
        formData := { initialFormState.formData with
          mobileNumbers := [str "0711", str "0722", str "0733"] } }).formData.mobileNumbers =
      [str "0711", str "0733"] :=
  ⟨by decide,
    ((removeMobileNumber_spec
      { initialFormState with
        formData := { initialFormState.formData with
          mobileNumbers := [str "0711", str "0722", str "0733"] } }).2 1
      (by decide) (by decide)).2.1⟩

/-! ### Family members -/

/-- `find` answers `undefined` exactly when no entry satisfies the callback. -/
theorem find_isNone_iff {α : Type} (p : α → Bool) (l : List α) :
    (l.find? p).isNone = true ↔ ∀ x ∈ l, p x = false := by
  induction l with
  | nil => simp
  | cons a t ih =>
    cases h : p a <;> simp [List.find?, h, ih]

/-- C8: `addFamilyMember` changes nothing when the id is already the id of a selected family
member or is the id of no record of the fetched roster `allCustomers`; otherwise it appends
the first roster record with that id to the display list and its id to the identifier list,
each growing by one, and changes nothing else. -/
theorem addFamilyMember_spec (customerId : Option Int) (st : FormState) :
    (((∃ f ∈ st.selectedFamilyMembers, some f.id = customerId) ∨
        (∀ c ∈ st.allCustomers, some c.id ≠ customerId)) →
      addFamilyMember customerId st = st) ∧
    (¬ ((∃ f ∈ st.selectedFamilyMembers, some f.id = customerId) ∨
        (∀ c ∈ st.allCustomers, some c.id ≠ customerId)) →
      ∃ member, st.allCustomers.find? (fun c => some c.id == customerId) = some member ∧
        member ∈ st.allCustomers ∧ some member.id = customerId ∧
        (addFamilyMember customerId st).selectedFamilyMembers =
          st.selectedFamilyMembers ++ [member] ∧
        (addFamilyMember customerId st).formData.familyMemberIds =
          st.formData.familyMemberIds ++ [member.id] ∧
        (addFamilyMember customerId st).selectedFamilyMembers.length =
          st.selectedFamilyMembers.length + 1 ∧
        (addFamilyMember customerId st).formData.familyMemberIds.length =
          st.formData.familyMemberIds.length + 1 ∧
        addFamilyMember customerId st =
          { st with
            selectedFamilyMembers := st.selectedFamilyMembers ++ [member]
            formData := { st.formData with
              familyMemberIds := st.formData.familyMemberIds ++ [member.id] } }) := by
  constructor
  · intro h
    unfold addFamilyMember
    cases hfind : st.allCustomers.find? (fun c => some c.id == customerId) with
    | none => rfl
    | some member =>
      have hid : some member.id = customerId := by
        simpa using List.find?_some hfind
      rcases h with ⟨f, hf, hfid⟩ | hno
      · have hsel : (st.selectedFamilyMembers.find? (fun f => f.id == member.id)).isNone
            = false := by
          cases hs : (st.selectedFamilyMembers.find? (fun f => f.id == member.id)).isNone with
          | false => rfl
          | true =>
            have := (find_isNone_iff _ _).1 hs f hf
            rw [← hid] at hfid
            simp at hfid this
            exact absurd hfid this
        simp [hsel]
      · exact absurd hid (hno member (List.mem_of_find?_eq_some hfind))
  · intro h
    rw [not_or] at h
    obtain ⟨hsel, hres⟩ := h
    cases hfind : st.allCustomers.find? (fun c => some c.id == customerId) with
    | none =>
      exfalso
      apply hres
      intro c hc
      have := List.find?_eq_none.1 hfind c hc
      simpa using this
    | some member =>
      have hid : some member.id = customerId := by
        simpa using List.find?_some hfind
      have hnone : (st.selectedFamilyMembers.find? (fun f => f.id == member.id)).isNone
          = true := by
        rw [find_isNone_iff]
        intro f hf
        cases hb : (f.id == member.id) with
        | false => rfl
        | true =>
          exfalso
          apply hsel
          refine ⟨f, hf, ?_⟩
          rw [← hid]
          simpa using hb
      have hadd : addFamilyMember customerId st =
          { st with
            selectedFamilyMembers := st.selectedFamilyMembers ++ [member]
            formData := { st.formData with
              familyMemberIds := st.formData.familyMemberIds ++ [member.id] } } := by
        unfold addFamilyMember
        rw [hfind]
        simp only [hnone, if_true]
      refine ⟨member, rfl, List.mem_of_find?_eq_some hfind, hid, ?_, ?_, ?_, ?_, hadd⟩ <;>
        rw [hadd] <;> simp

/-- In `sampleFormState` the id 1 is already selected, and the id 2 is not and resolves to
`sampleAlice`. -/
theorem addFamilyMember_spec_witness :
    ((∃ f ∈ sampleFormState.selectedFamilyMembers, some f.id = some 1) ∧
      addFamilyMember (some 1) sampleFormState = sampleFormState) ∧
    (¬ ((∃ f ∈ sampleFormState.selectedFamilyMembers, some f.id = some 2) ∨
        (∀ c ∈ sampleFormState.allCustomers, some c.id ≠ some 2)) ∧
      (addFamilyMember (some 2) sampleFormState).formData.familyMemberIds = [1, 2]) :=
  ⟨⟨⟨sampleBob, by simp [sampleFormState], rfl⟩,
      (addFamilyMember_spec (some 1) sampleFormState).1
        (Or.inl ⟨sampleBob, by simp [sampleFormState], rfl⟩)⟩,
    ⟨by simp [sampleFormState, sampleBob, sampleAlice],
      by
        obtain ⟨m, _, _, hid, _, h, _⟩ := (addFamilyMember_spec (some 2) sampleFormState).2
          (by simp [sampleFormState, sampleBob, sampleAlice])
        rw [h, Option.some.inj hid]
        rfl⟩⟩


/-- What `addFamilyMember` does: nothing, or it appends a record of `allCustomers` and its id. -/
theorem addFamilyMember_cases (customerId : Option Int) (st : FormState) :
    addFamilyMember customerId st = st ∨
    ∃ member ∈ st.allCustomers, addFamilyMember customerId st =
      { st with
        selectedFamilyMembers := st.selectedFamilyMembers ++ [member]
        formData := { st.formData with
          familyMemberIds := st.formData.familyMemberIds ++ [member.id] } } := by
  unfold addFamilyMember
  cases hfind : st.allCustomers.find? (fun c => some c.id == customerId) with
  | none => exact Or.inl rfl
  | some member =>
    dsimp only
    cases hs : (st.selectedFamilyMembers.find? (fun f => f.id == member.id)).isNone with
    | false => exact Or.inl (by simp)
    | true => exact Or.inr ⟨member, List.mem_of_find?_eq_some hfind, by simp⟩

/-- C9: once the roster has been fetched while `customer` is edited, no record of
`allCustomers`, and so no option of the family-member select, has the id of `customer`;
whatever the draft and the selection are by then, every id that `addFamilyMember` puts into
the identifier list, for any argument, differs from the id of `customer`. -/
theorem own_id_never_offered (customer : Customer) (roster : List Customer) (st : FormState)
    (formData : FormData) (selected : List Customer) (customerId : Option Int) :
    (∀ c ∈ (fetchAllCustomers (some customer) (some roster) st).allCustomers,
      c ∈ roster ∧ c.id ≠ customer.id) ∧
    (∀ c ∈ familyMemberOptions
        { fetchAllCustomers (some customer) (some roster) st with
          formData := formData, selectedFamilyMembers := selected },
      c.id ≠ customer.id) ∧
    (∀ x ∈ (addFamilyMember customerId
        { fetchAllCustomers (some customer) (some roster) st with
          formData := formData, selectedFamilyMembers := selected }).formData.familyMemberIds,
      x ∈ formData.familyMemberIds ∨ x ≠ customer.id) ∧
    (∀ m ∈ (addFamilyMember customerId
        { fetchAllCustomers (some customer) (some roster) st with
          formData := formData, selectedFamilyMembers := selected }).selectedFamilyMembers,
      m ∈ selected ∨ m.id ≠ customer.id) := by
  have hall : ∀ c ∈ (fetchAllCustomers (some customer) (some roster) st).allCustomers,
      c ∈ roster ∧ c.id ≠ customer.id := by
    intro c hc
    simpa [fetchAllCustomers] using hc
  refine ⟨hall, ?_, ?_, ?_⟩
  · intro c hc
    exact (hall c (List.mem_of_mem_filter hc)).2
  · intro x hx
    rcases addFamilyMember_cases customerId _ with h | ⟨member, hmem, h⟩
    · rw [h] at hx
      exact Or.inl hx
    · rw [h] at hx
      rcases List.mem_append.1 hx with hx | hx
      · exact Or.inl hx
      · rw [List.mem_singleton] at hx
        subst hx
        exact Or.inr (hall member hmem).2
  · intro m hm
    rcases addFamilyMember_cases customerId _ with h | ⟨member, hmem, h⟩
    · rw [h] at hm
      exact Or.inl hm
    · rw [h] at hm
      rcases List.mem_append.1 hm with hm | hm
      · exact Or.inl hm
      · rw [List.mem_singleton] at hm
        subst hm
        exact Or.inr (hall _ hmem).2

/-- The roster of three records fetched while `sampleCarol` is edited. -/
theorem own_id_never_offered_witness :
    ((fetchAllCustomers (some sampleCarol) (some [sampleBob, sampleCarol, sampleAlice])
      initialFormState).allCustomers.map (fun c => c.id) = [1, 2]) ∧
    (∀ x ∈ (addFamilyMember (some 3)
        { fetchAllCustomers (some sampleCarol) (some [sampleBob, sampleCarol, sampleAlice])
            initialFormState with
          formData := initialFormState.formData,
          selectedFamilyMembers := [] }).formData.familyMemberIds,
      x ∈ initialFormState.formData.familyMemberIds ∨ x ≠ sampleCarol.id) :=
  ⟨rfl, (own_id_never_offered sampleCarol [sampleBob, sampleCarol, sampleAlice]
    initialFormState initialFormState.formData [] (some 3)).2.2.1⟩

/-! ### Slots of the draft -/

/-- Mapping with the index keeps the length. -/
theorem mapWithIndex_length {α β : Type} (f : α → Nat → β) (l : List α) :
    (mapWithIndex f l).length = l.length := by
  simp [mapWithIndex, List.enum]

/-- Filtering by `index !== i` drops at most one entry. -/
theorem filterWithIndex_ne_length {α : Type} (l : List α) (i : Nat) :
    l.length - 1 ≤ (filterWithIndex (fun _ j => j != i) l).length := by
  rw [filterWithIndex_ne, List.length_append, List.length_take, List.length_drop]
  omega

/-- The seeded draft has a mobile-number slot and an address slot. -/
theorem seedDraft_slots (customer : Option Customer) :
    1 ≤ (seedDraft customer initialFormState).formData.mobileNumbers.length ∧
    1 ≤ (seedDraft customer initialFormState).formData.addresses.length := by
  cases customer with
  | none => simp [seedDraft, initialFormState]
  | some c =>
    constructor
    · simp only [seedDraft]
      cases hm : c.mobileNumbers with
      | none => simp
      | some ms =>
        by_cases h : ms.length > 0
        · simp only [h, if_true]; omega
        · simp [h]
    · simp only [seedDraft]
      cases ha : c.addresses with
      | none => simp
      | some as =>
        by_cases h : as.length > 0
        · simp only [h, if_true]; omega
        · simp [h]

/-- One interaction keeps a mobile-number slot and an address slot in the draft. -/
theorem editorStep_slots (st : FormState) (action : EditorAction)
    (h : 1 ≤ st.formData.mobileNumbers.length ∧ 1 ≤ st.formData.addresses.length) :
    1 ≤ (editorStep st action).formData.mobileNumbers.length ∧
    1 ≤ (editorStep st action).formData.addresses.length := by
  unfold editorStep
  by_cases hav : action.available st = true
  · rw [if_pos hav]
    cases action with
    | handleChange field value =>
      cases field <;> exact h
    | addMobileNumber =>
      exact ⟨by simp [EditorAction.handler, addMobileNumber], h.2⟩
    | removeMobileNumber index =>
      simp only [EditorAction.available, mobileRemoveAvailable, Bool.and_eq_true,
        decide_eq_true_eq] at hav
      refine ⟨?_, h.2⟩
      have := filterWithIndex_ne_length st.formData.mobileNumbers index
      simp only [EditorAction.handler, removeMobileNumber]
      omega
    | updateMobileNumber index value =>
      refine ⟨?_, h.2⟩
      simp only [EditorAction.handler, updateMobileNumber, mapWithIndex_length]
      exact h.1
    | addAddress =>
      exact ⟨h.1, by simp [EditorAction.handler, addAddress]⟩
    | removeAddress index =>
      simp only [EditorAction.available, addressRemoveAvailable, Bool.and_eq_true,
        decide_eq_true_eq] at hav
      refine ⟨h.1, ?_⟩
      have := filterWithIndex_ne_length st.formData.addresses index
      simp only [EditorAction.handler, removeAddress]
      omega
    | updateAddress index field value =>
      refine ⟨h.1, ?_⟩
      simp only [EditorAction.handler, updateAddress, mapWithIndex_length]
      exact h.2
    | addFamilyMember customerId =>
      rcases addFamilyMember_cases customerId st with e | ⟨m, _, e⟩
      · simp only [EditorAction.handler, e]; exact h
      · simp only [EditorAction.handler, e]; exact h
    | removeFamilyMember memberId => exact h
  · rw [if_neg hav]
    exact h

/-- C11: in every state of the editor reached from the initial draft, fresh or seeded from
any supplied record (its mobile-number or address list may be missing or empty), by any
sequence of interactions, where a Remove button exists only while more than one slot remains,
the draft has at least one mobile-number slot and at least one address slot. -/
theorem editorSession_slots (customer : Option Customer) (actions : List EditorAction) :
    1 ≤ (editorSession customer actions).formData.mobileNumbers.length ∧
    1 ≤ (editorSession customer actions).formData.addresses.length := by
  have hseed := seedDraft_slots customer
  unfold editorSession
  generalize seedDraft customer initialFormState = st at hseed ⊢
  induction actions generalizing st with
  | nil => exact hseed
  | cons action rest ih =>
    rw [List.foldl_cons]
    exact ih _ (editorStep_slots st action hseed)

/-- A draft seeded from `sampleAlice`, whose lists are missing: the single empty slot cannot
be removed, and after a slot is added and the first one removed one slot is left. -/
theorem editorSession_slots_witness :
    (editorSession (some sampleAlice)
      [EditorAction.removeMobileNumber 0, EditorAction.removeAddress 0]).formData.mobileNumbers
      = [[]] ∧
    (editorSession (some sampleAlice)
      [EditorAction.addMobileNumber, EditorAction.updateMobileNumber 1 (str "0711"),
        EditorAction.removeMobileNumber 0,
        EditorAction.removeMobileNumber 0]).formData.mobileNumbers = [str "0711"] ∧
    1 ≤ (editorSession (some sampleAlice)
      [EditorAction.addMobileNumber, EditorAction.updateMobileNumber 1 (str "0711"),
        EditorAction.removeMobileNumber 0,
        EditorAction.removeMobileNumber 0]).formData.addresses.length :=
  ⟨by decide, by decide,
    (editorSession_slots (some sampleAlice)
      [EditorAction.addMobileNumber, EditorAction.updateMobileNumber 1 (str "0711"),
        EditorAction.removeMobileNumber 0, EditorAction.removeMobileNumber 0]).2⟩

/-! ### Navigation between pages -/

/-- Pressing a button of the pagination bar changes neither the filtered list nor the page
count. -/
theorem navigate_totalPages (toLowerCase : Str → Str) (st : ListState) (action : NavAction) :
    (navigate toLowerCase st action).totalPages toLowerCase = st.totalPages toLowerCase := by
  unfold navigate
  split <;> rfl

/-- C12: in a browser state whose current page lies between 1 and the page count, every
button of the pagination bar that is enabled (the bar is rendered when there is more than one
page, Previous is disabled on page 1, Next on the last page) hands `paginate` a page between
1 and the page count, so after pressing any button, and after any sequence of presses, the
current page still lies between 1 and the page count. -/
theorem navigate_in_range (toLowerCase : Str → Str) (st : ListState)
    (hlo : 1 ≤ st.currentPage) (hhi : st.currentPage ≤ (st.totalPages toLowerCase : Int)) :
    (∀ action : NavAction,
      action.enabled (st.totalPages toLowerCase) st.currentPage = true →
      (navigate toLowerCase st action).currentPage = action.target st.currentPage ∧
      1 ≤ action.target st.currentPage ∧
      action.target st.currentPage ≤ (st.totalPages toLowerCase : Int)) ∧
    (∀ actions : List NavAction,
      1 ≤ (actions.foldl (navigate toLowerCase) st).currentPage ∧
      (actions.foldl (navigate toLowerCase) st).currentPage ≤
        ((actions.foldl (navigate toLowerCase) st).totalPages toLowerCase : Int) ∧
      (actions.foldl (navigate toLowerCase) st).totalPages toLowerCase =
        st.totalPages toLowerCase) := by
  have hstep : ∀ (s : ListState) (action : NavAction), 1 ≤ s.currentPage →
      s.currentPage ≤ (s.totalPages toLowerCase : Int) →
      action.enabled (s.totalPages toLowerCase) s.currentPage = true →
      1 ≤ action.target s.currentPage ∧
      action.target s.currentPage ≤ (s.totalPages toLowerCase : Int) := by
    intro s action h1 h2 hen
    cases action with
    | previous =>
      simp only [NavAction.enabled, Bool.and_eq_true, decide_eq_true_eq, bne_iff_ne] at hen
      simp only [NavAction.target]
      omega
    | next =>
      simp only [NavAction.enabled, Bool.and_eq_true, decide_eq_true_eq, bne_iff_ne] at hen
      simp only [NavAction.target]
      omega
    | page index =>
      simp only [NavAction.enabled, Bool.and_eq_true, decide_eq_true_eq] at hen
      simp only [NavAction.target]
      omega
  refine ⟨fun action hen => ⟨by simp [navigate, hen, paginate], hstep st action hlo hhi hen⟩, ?_⟩
  intro actions
  induction actions generalizing st with
  | nil => exact ⟨hlo, hhi, rfl⟩
  | cons action rest ih =>
    rw [List.foldl_cons]
    have htp := navigate_totalPages toLowerCase st action
    have hcur : 1 ≤ (navigate toLowerCase st action).currentPage ∧
        (navigate toLowerCase st action).currentPage ≤ (st.totalPages toLowerCase : Int) := by
      by_cases hen : action.enabled (st.totalPages toLowerCase) st.currentPage = true
      · have := hstep st action hlo hhi hen
        simpa [navigate, hen, paginate] using this
      · simpa [navigate, hen] using And.intro hlo hhi
    have := ih (navigate toLowerCase st action) hcur.1 (by rw [htp]; exact hcur.2)
    rw [htp] at this
    exact this

/-- The browser showing `sampleRoster` has two pages; from page 1, the presses Next, Next,
Previous, button 2, Previous end on page 1, the second Next not being enabled. -/
theorem navigate_in_range_witness :
    (1 ≤ sampleListState.currentPage ∧
      sampleListState.currentPage ≤ (sampleListState.totalPages asciiToLowerCase : Int)) ∧
    sampleListState.totalPages asciiToLowerCase = 2 ∧
    ([NavAction.next, NavAction.next].foldl (navigate asciiToLowerCase)
      sampleListState).currentPage = 2 ∧
    1 ≤ ([NavAction.next, NavAction.next, NavAction.previous, NavAction.page 1,
      NavAction.previous].foldl (navigate asciiToLowerCase) sampleListState).currentPage :=
  ⟨by decide, by decide, by decide,
    ((navigate_in_range asciiToLowerCase sampleListState (by decide) (by decide)).2
      [NavAction.next, NavAction.next, NavAction.previous, NavAction.page 1,
        NavAction.previous]).1⟩

/-! ### Delete -/

/-- C13: `handleDelete` leaves the roster as it is when the user declines the confirmation
or the delete call fails, and makes no delete call when the user declines; when the user
confirms and the call succeeds the roster becomes the previous roster without the records
that have the id, the other records staying in their order. -/
theorem handleDelete_roster (id : Int) (confirmed requestOk : Bool) (st : ListState) :
    ((confirmed = false ∨ requestOk = false) →
      (handleDelete id confirmed requestOk st).1 = st) ∧
    (confirmed = false →
      ListEffect.deleteCustomer id ∉ (handleDelete id confirmed requestOk st).2) ∧
    (confirmed = true → requestOk = true →
      (handleDelete id confirmed requestOk st).1.customers =
        st.customers.filter (fun c => decide (c.id ≠ id)) ∧
      (handleDelete id confirmed requestOk st).1.customers.Sublist st.customers ∧
      (∀ c, c ∈ (handleDelete id confirmed requestOk st).1.customers ↔
        c ∈ st.customers ∧ c.id ≠ id) ∧
      (handleDelete id confirmed requestOk st).1 =
        { st with customers := (handleDelete id confirmed requestOk st).1.customers }) := by
  refine ⟨?_, ?_, ?_⟩
  · intro h
    rcases h with h | h
    · simp [handleDelete, h]
    · cases confirmed <;> simp [handleDelete, h]
  · intro h
    simp [handleDelete, h]
  · intro hc hr
    subst hc hr
    have hfilter : (handleDelete id true true st).1.customers =
        st.customers.filter (fun c => decide (c.id ≠ id)) := by
      simp only [handleDelete, if_true]
      apply List.filter_congr
      intro c _
      by_cases hc : c.id = id <;> simp [hc]
    refine ⟨hfilter, ?_, ?_, rfl⟩
    · rw [hfilter]; exact List.filter_sublist _
    · intro c
      rw [hfilter, List.mem_filter]
      simp

/-- Deleting `sampleBob` from `sampleRoster`: declined, failed, and done. -/
theorem handleDelete_roster_witness :
    ((handleDelete 1 true false sampleListState).1.customers.length = 11 ∧
      (handleDelete 1 false true sampleListState).1.customers.length = 11) ∧
    (handleDelete 1 true true sampleListState).1.customers.length = 10 ∧
    (handleDelete 1 true true sampleListState).1.customers =
      sampleListState.customers.filter (fun c => decide (c.id ≠ 1)) :=
  ⟨by decide, by decide,
    ((handleDelete_roster 1 true true sampleListState).2.2 rfl rfl).1⟩

/-! ### Bulk upload -/

/-- The indicator after `n` firings of the timer, started at 0. -/
theorem progressTick_iterate (n : Nat) : progressTick^[n] 0 = min (10 * n) 90 := by
  induction n with
  | zero => rfl
  | succ k ih =>
    rw [Function.iterate_succ_apply', ih]
    unfold progressTick
    split <;> omega

/-- C14: a bulk upload sets the indicator to 0; a firing of the timer takes `p` to `p + 10`
when `p < 90` and to 90 otherwise, and never yields 100; while the call is in flight the
indicator never exceeds 90 and never goes down from one firing to a later one; when the call
settles the indicator is 100 exactly when the call has succeeded. -/
theorem uploadProgress_bounds (st : ListState) (file : String)
    (hfile : st.uploadFile = some file) :
    (handleBulkUploadStart st).1.uploadProgress = 0 ∧
    (∀ p, progressTick p = if p < 90 then p + 10 else 90) ∧
    (∀ p, progressTick p ≠ 100) ∧
    (∀ n, (progressTicks n (handleBulkUploadStart st).1).uploadProgress ≤ 90) ∧
    (∀ m n, m ≤ n →
      (progressTicks m (handleBulkUploadStart st).1).uploadProgress ≤
        (progressTicks n (handleBulkUploadStart st).1).uploadProgress) ∧
    (∀ n requestOk,
      ((handleBulkUpload n requestOk st).1.uploadProgress = 100 ↔ requestOk = true) ∧
      (requestOk = false → (handleBulkUpload n requestOk st).1.uploadProgress ≤ 90)) := by
  have hstart : (handleBulkUploadStart st).1.uploadProgress = 0 := by
    simp [handleBulkUploadStart, hfile]
  have hticks : ∀ n, (progressTicks n (handleBulkUploadStart st).1).uploadProgress =
      min (10 * n) 90 := by
    intro n
    simp only [progressTicks, hstart]
    exact progressTick_iterate n
  refine ⟨hstart, ?_, ?_, ?_, ?_, ?_⟩
  · intro p
    unfold progressTick
    by_cases hp : p < 90
    · rw [if_pos hp, if_neg (by omega)]
    · rw [if_neg hp, if_pos (by omega)]
  · intro p
    unfold progressTick
    split <;> omega
  · intro n
    rw [hticks]
    omega
  · intro m n hmn
    rw [hticks, hticks]
    omega
  · intro n requestOk
    have hrun : (handleBulkUpload n requestOk st).1 =
        (handleBulkUploadSettle requestOk (progressTicks n (handleBulkUploadStart st).1)).1 := by
      simp [handleBulkUpload, hfile]
    rw [hrun]
    cases requestOk with
    | true => simp [handleBulkUploadSettle]
    | false =>
      have h90 := hticks n
      simp only [handleBulkUploadSettle]
      simp only [Bool.false_eq_true, if_false, iff_false, forall_true_left]
      omega

/-- An upload of "customers.xlsx" during which the timer fires twelve times. -/
theorem uploadProgress_bounds_witness :
    ({ sampleListState with uploadFile := some "customers.xlsx" } : ListState).uploadFile =
      some "customers.xlsx" ∧
    (handleBulkUpload 12 false
      { sampleListState with uploadFile := some "customers.xlsx" }).1.uploadProgress = 90 ∧
    (handleBulkUpload 3 true
      { sampleListState with uploadFile := some "customers.xlsx" }).1.uploadProgress = 100 ∧
    (progressTicks 3 (handleBulkUploadStart
      { sampleListState with uploadFile := some "customers.xlsx" }).1).uploadProgress ≤ 90 :=
  ⟨rfl, by decide, by decide,
    (uploadProgress_bounds { sampleListState with uploadFile := some "customers.xlsx" }
      "customers.xlsx" rfl).2.2.2.1 3⟩

/-! ### The two family-member lists -/

/-- C16: when the identifier list is the list of the ids of the displayed family members
and has no duplicates, it still is and still has none after `addFamilyMember` and after
`removeFamilyMember`, for any argument; `removeFamilyMember` removes the entries with the
given id from both lists, keeps the other entries in their order and changes nothing else. -/
theorem familyMember_lists_agree (customerId : Option Int) (memberId : Int) (st : FormState)
    (hids : st.formData.familyMemberIds = st.selectedFamilyMembers.map (fun m => m.id))
    (hnodup : st.formData.familyMemberIds.Nodup) :
    ((addFamilyMember customerId st).formData.familyMemberIds =
        (addFamilyMember customerId st).selectedFamilyMembers.map (fun m => m.id) ∧
      (addFamilyMember customerId st).formData.familyMemberIds.Nodup) ∧
    ((removeFamilyMember memberId st).formData.familyMemberIds =
        (removeFamilyMember memberId st).selectedFamilyMembers.map (fun m => m.id) ∧
      (removeFamilyMember memberId st).formData.familyMemberIds.Nodup) ∧
    ((removeFamilyMember memberId st).formData.familyMemberIds =
        st.formData.familyMemberIds.filter (fun x => decide (x ≠ memberId)) ∧
      (removeFamilyMember memberId st).selectedFamilyMembers =
        st.selectedFamilyMembers.filter (fun m => decide (m.id ≠ memberId)) ∧
      memberId ∉ (removeFamilyMember memberId st).formData.familyMemberIds ∧
      (∀ x, x ≠ memberId →
        (x ∈ (removeFamilyMember memberId st).formData.familyMemberIds ↔
          x ∈ st.formData.familyMemberIds)) ∧
      (removeFamilyMember memberId st).formData.familyMemberIds =
        st.formData.familyMemberIds.erase memberId ∧
      removeFamilyMember memberId st =
        { st with
          selectedFamilyMembers := (removeFamilyMember memberId st).selectedFamilyMembers
          formData := { st.formData with
            familyMemberIds := (removeFamilyMember memberId st).formData.familyMemberIds } }) := by
  have hrid : (removeFamilyMember memberId st).formData.familyMemberIds =
      st.formData.familyMemberIds.filter (fun x => decide (x ≠ memberId)) := by
    simp only [removeFamilyMember]
    apply List.filter_congr
    intro x _
    by_cases hx : x = memberId <;> simp [hx]
  have hrsel : (removeFamilyMember memberId st).selectedFamilyMembers =
      st.selectedFamilyMembers.filter (fun m => decide (m.id ≠ memberId)) := by
    simp only [removeFamilyMember]
    apply List.filter_congr
    intro m _
    by_cases hm : m.id = memberId <;> simp [hm]
  refine ⟨?_, ?_, hrid, hrsel, ?_, ?_, ?_, rfl⟩
  · unfold addFamilyMember
    cases hfind : st.allCustomers.find? (fun c => some c.id == customerId) with
    | none => exact ⟨hids, hnodup⟩
    | some member =>
      dsimp only
      cases hs : (st.selectedFamilyMembers.find? (fun f => f.id == member.id)).isNone with
      | false => exact ⟨hids, hnodup⟩
      | true =>
        have hnot : member.id ∉ st.formData.familyMemberIds := by
          rw [hids, List.mem_map]
          rintro ⟨f, hf, hfid⟩
          have := (find_isNone_iff _ _).1 hs f hf
          simp [hfid] at this
        simp only [if_true, List.map_append, List.map_cons, List.map_nil, hids]
        refine ⟨trivial, ?_⟩
        rw [← hids]
        exact List.nodup_append.2 ⟨hnodup, List.nodup_singleton _,
          by
            intro x hx hx'
            rw [List.mem_singleton] at hx'
            subst hx'
            exact hnot hx⟩
  · refine ⟨?_, ?_⟩
    · rw [hrid, hrsel, hids, List.filter_map]
      rfl
    · rw [hrid]
      exact hnodup.filter _
  · rw [hrid, List.mem_filter]
    simp
  · intro x hx
    rw [hrid, List.mem_filter]
    simp [hx]
  · rw [hrid]
    exact (hnodup.erase_eq_filter memberId).symm ▸ (by
      apply List.filter_congr
      intro x _
      by_cases hx : x = memberId <;> simp [hx])

/-- In `sampleFormState` the identifier list `[1]` is the id list of the selection
`[sampleBob]`; after adding record 2 and removing record 1 it is `[2]`. -/
theorem familyMember_lists_agree_witness :
    (sampleFormState.formData.familyMemberIds =
        sampleFormState.selectedFamilyMembers.map (fun m => m.id) ∧
      sampleFormState.formData.familyMemberIds.Nodup) ∧
    (addFamilyMember (some 2) sampleFormState).formData.familyMemberIds = [1, 2] ∧
    (removeFamilyMember 1 (addFamilyMember (some 2) sampleFormState)).formData.familyMemberIds
      = [2] ∧
    (removeFamilyMember 1 sampleFormState).formData.familyMemberIds =
      (removeFamilyMember 1 sampleFormState).selectedFamilyMembers.map (fun m => m.id) :=
  ⟨⟨rfl, by decide⟩, by decide, by decide,
    (familyMember_lists_agree (some 2) 1 sampleFormState rfl (by decide)).2.1.1⟩

/-! ### The pages together -/

/-- Page `i + 1` holds the ten records after the first `i * 10`. -/
theorem currentCustomers_succ {α : Type} (l : List α) (i : Nat) :
    currentCustomers l ((i : Int) + 1) = (l.drop (i * 10)).take 10 := by
  have h := slice_page l (i + 1) (by omega)
  have hcast : (((i + 1 : Nat)) : Int) = (i : Int) + 1 := by push_cast; rfl
  rw [hcast] at h
  unfold currentCustomers
  rw [h, List.drop_take, Nat.add_sub_cancel]
  by_cases hle : (i + 1) * 10 ≤ l.length
  · rw [Nat.min_eq_left hle]
    congr 1
    omega
  · rw [Nat.min_eq_right (by omega)]
    rw [List.take_of_length_le (by rw [List.length_drop]),
      List.take_of_length_le (by rw [List.length_drop]; omega)]

/-- The first `k` pages, one after the other, are the first `k * 10` records. -/
theorem pages_flatten_take {α : Type} (l : List α) (k : Nat) :
    ((List.range k).map (fun i : Nat => currentCustomers l ((i : Int) + 1))).flatten =
      l.take (k * 10) := by
  induction k with
  | zero => simp
  | succ k ih =>
    rw [List.range_succ, List.map_append, List.flatten_append, ih]
    simp only [List.map_cons, List.map_nil, List.flatten_cons, List.flatten_nil,
      List.append_nil]
    rw [currentCustomers_succ, Nat.succ_mul, List.take_add]

/-- C17: the pages 1 to the page count, one after the other, are the filtered list; the
entry at position `j` of page `p` is the entry at position `(p-1)*10 + j` of the filtered
list, and every position of the filtered list is that of exactly one page and position on
it; every page from 1 to the page count is non-empty, and every page before the last holds
exactly 10 records. -/
theorem pages_partition {α : Type} (filtered : List α) :
    ((List.range (totalPages filtered)).map
      (fun i : Nat => currentCustomers filtered ((i : Int) + 1))).flatten = filtered ∧
    (∀ p j : Nat, 1 ≤ p → p ≤ totalPages filtered →
      j < (currentCustomers filtered p).length →
      (p - 1) * 10 + j < filtered.length ∧
      (currentCustomers filtered p)[j]? = filtered[(p - 1) * 10 + j]?) ∧
    (∀ k : Nat, k < filtered.length →
      ∃! pj : Nat × Nat, 1 ≤ pj.1 ∧ pj.1 ≤ totalPages filtered ∧
        pj.2 < (currentCustomers filtered pj.1).length ∧ (pj.1 - 1) * 10 + pj.2 = k) ∧
    (∀ p : Nat, 1 ≤ p → p ≤ totalPages filtered → currentCustomers filtered p ≠ []) ∧
    (∀ p : Nat, 1 ≤ p → p < totalPages filtered →
      (currentCustomers filtered p).length = 10) := by
  have htp : totalPages filtered = (filtered.length + 9) / 10 := by
    simp [totalPages, customersPerPage]
  have hlen : ∀ p : Nat, 1 ≤ p →
      (currentCustomers filtered p).length = min 10 (filtered.length - (p - 1) * 10) := by
    intro p hp
    obtain ⟨i, rfl⟩ : ∃ i, p = i + 1 := ⟨p - 1, by omega⟩
    have hcast : (((i + 1 : Nat)) : Int) = (i : Int) + 1 := by push_cast; rfl
    rw [hcast, currentCustomers_succ, List.length_take, List.length_drop]
    simp
  refine ⟨?_, ?_, ?_, ?_, ?_⟩
  · rw [pages_flatten_take]
    exact List.take_of_length_le (by omega)
  · intro p j hp _ hj
    rw [hlen p hp] at hj
    obtain ⟨i, rfl⟩ : ∃ i, p = i + 1 := ⟨p - 1, by omega⟩
    have hcast : (((i + 1 : Nat)) : Int) = (i : Int) + 1 := by push_cast; rfl
    simp only [Nat.add_sub_cancel] at hj ⊢
    refine ⟨by omega, ?_⟩
    rw [hcast, currentCustomers_succ, List.getElem?_take_of_lt (by omega),
      List.getElem?_drop]
  · intro k hk
    refine ⟨(k / 10 + 1, k % 10), ?_, ?_⟩
    · refine ⟨by simp, ?_, ?_, ?_⟩
      · simp only; omega
      · simp only
        rw [hlen _ (by omega)]
        simp only [Nat.add_sub_cancel]
        omega
      · simp only [Nat.add_sub_cancel]
        omega
    · rintro ⟨p, j⟩ ⟨hp1, _, hj, hk'⟩
      simp only at hp1 hj hk'
      rw [hlen p hp1] at hj
      have hp : p = k / 10 + 1 := by omega
      have hjk : j = k % 10 := by omega
      rw [hp, hjk]
  · intro p hp1 hp2 hnil
    have := hlen p hp1
    rw [hnil, List.length_nil] at this
    omega
  · intro p hp1 hp2
    rw [hlen p hp1]
    omega

/-- The 25 records numbered 1 to 25: pages of 10, 10 and 5 records. -/
theorem pages_partition_witness :
    (1 ≤ 3 ∧ 3 ≤ totalPages (List.range' 1 25)) ∧
    (1 ≤ 2 ∧ 2 < totalPages (List.range' 1 25)) ∧
    (List.range 3).map (fun i : Nat => (currentCustomers (List.range' 1 25) ((i : Int) + 1)).length)
      = [10, 10, 5] ∧
    currentCustomers (List.range' 1 25) (3 : Nat) ≠ [] ∧
    (currentCustomers (List.range' 1 25) (2 : Nat)).length = 10 :=
  ⟨by decide, by decide, by decide,
    (pages_partition (List.range' 1 25)).2.2.2.1 3 (by decide) (by decide),
    (pages_partition (List.range' 1 25)).2.2.2.2 2 (by decide) (by decide)⟩

/-! ### The current page after the filtered list shrinks -/

/-- C18: typing a search term and deleting a record leave `currentPage` as it is.  In the
browser showing `sampleRoster` (two pages) the user presses Next and is on page 2; after
the search term "bob" is typed the filtered list holds one record and the page count is 1,
the current page is still 2 and the displayed page is empty.  The same happens when the only
record of page 2 is deleted. -/
theorem currentPage_not_reset :
    (∀ (value : Str) (st : ListState), (setSearchTerm value st).currentPage = st.currentPage) ∧
    (∀ (id : Int) (confirmed requestOk : Bool) (st : ListState),
      (handleDelete id confirmed requestOk st).1.currentPage = st.currentPage) ∧
    (∃ (roster : List Customer) (presses : List NavAction) (value : Str) (st : ListState),
      st = setSearchTerm value
        (presses.foldl (navigate asciiToLowerCase)
          (fetchCustomers (some roster) initialListState)) ∧
      (presses.foldl (navigate asciiToLowerCase)
          (fetchCustomers (some roster) initialListState)).currentPage = st.currentPage ∧
      (st.totalPages asciiToLowerCase : Int) < st.currentPage ∧
      st.currentCustomers asciiToLowerCase = [] ∧
      st.filteredCustomers asciiToLowerCase ≠ []) ∧
    (∃ (roster : List Customer) (presses : List NavAction) (id : Int) (st : ListState),
      st = (handleDelete id true true
        (presses.foldl (navigate asciiToLowerCase)
          (fetchCustomers (some roster) initialListState))).1 ∧
      (st.totalPages asciiToLowerCase : Int) < st.currentPage ∧
      st.currentCustomers asciiToLowerCase = [] ∧
      st.filteredCustomers asciiToLowerCase ≠ []) := by
  refine ⟨fun _ _ => rfl, ?_, ?_, ?_⟩
  · intro id confirmed requestOk st
    cases confirmed <;> cases requestOk <;> rfl
  · refine ⟨sampleRoster, [NavAction.next], str "bob", _, rfl, rfl, by decide, rfl, ?_⟩
    intro h
    have hlen := congrArg List.length h
    revert hlen
    decide
  · refine ⟨sampleRoster, [NavAction.next], 1, _, rfl, by decide, rfl, ?_⟩
    intro h
    have hlen := congrArg List.length h
    revert hlen
    decide

/-! ### Submission of a valid draft -/

/-- A draft with its three required fields filled in passes `validateForm`. -/
theorem validateForm_valid (st : FormState)
    (h : trim st.formData.name ≠ [] ∧ trim st.formData.nicNumber ≠ [] ∧
      trim st.formData.dateOfBirth ≠ []) :
    (validateForm st).2 = true := by
  obtain ⟨h1, h2, h3⟩ := h
  unfold validateForm
  cases e1 : trim st.formData.name <;> cases e2 : trim st.formData.nicNumber <;>
    cases e3 : trim st.formData.dateOfBirth <;>
    simp_all [Errors.assign, Errors.keys]

/-- A filter whose callback can throw has no result exactly when the callback throws on some
entry. -/
theorem filterThrowing_eq_none {α : Type} (p : α → Option Bool) (l : List α) :
    filterThrowing p l = none ↔ ∃ a ∈ l, p a = none := by
  induction l with
  | nil => simp [filterThrowing]
  | cons a t ih =>
    cases ha : p a with
    | none => simp [filterThrowing, ha]
    | some b =>
      cases ht : filterThrowing p t with
      | none =>
        have := ih.1 ht
        simp [filterThrowing, ha, ht, this]
      | some r =>
        have hno : ¬ ∃ x ∈ t, p x = none := fun hx => by
          rw [ih.2 hx] at ht
          cases ht
        simp only [filterThrowing, ha, ht, List.mem_cons]
        constructor
        · intro h; cases h
        · rintro ⟨x, hx | hx, hpx⟩
          · subst hx; rw [ha] at hpx; cases hpx
          · exact absurd ⟨x, hx, hpx⟩ hno

/-- When the callback throws on no entry, the filter keeps the entries on which it answers
`true`, in their order. -/
theorem filterThrowing_eq_some {α : Type} (p : α → Option Bool) (l r : List α)
    (h : filterThrowing p l = some r) :
    r = l.filter (fun a => p a == some true) := by
  induction l generalizing r with
  | nil =>
    simp only [filterThrowing, Option.some.injEq] at h
    simp [← h]
  | cons a t ih =>
    cases ha : p a with
    | none => simp [filterThrowing, ha] at h
    | some b =>
      cases ht : filterThrowing p t with
      | none => simp [filterThrowing, ha, ht] at h
      | some rest =>
        simp only [filterThrowing, ha, ht, Option.some.injEq] at h
        have hrest := ih rest ht
        cases b <;> simp_all [List.filter_cons]

/-- What `cleanedData` is.  Building it throws exactly when the first line of some address is
not a string.  Otherwise its mobile numbers are those of the draft that are non-empty after
trimming, its addresses are those of the draft except the ones whose trimmed first line,
`cityId` and `countryId` are all the empty string, both in their order, and the other fields
are those of the draft. -/
theorem cleanedData_spec (formData : FormData) :
    (cleanedData formData = none ↔
      ∃ addr ∈ formData.addresses, addr.addressLine1.trim = none) ∧
    (∀ data, cleanedData formData = some data →
      data.mobileNumbers =
        formData.mobileNumbers.filter (fun mobile => decide (trim mobile ≠ [])) ∧
      data.addresses =
        formData.addresses.filter (fun addr =>
          decide (¬ (addr.addressLine1.trim = some [] ∧ addr.cityId = JsValue.string [] ∧
            addr.countryId = JsValue.string []))) ∧
      data.name = formData.name ∧ data.nicNumber = formData.nicNumber ∧
      data.dateOfBirth = formData.dateOfBirth ∧
      data.familyMemberIds = formData.familyMemberIds) := by
  constructor
  · unfold cleanedData
    cases hf : filterThrowing addressKept formData.addresses with
    | none =>
      obtain ⟨a, ha, hk⟩ := (filterThrowing_eq_none _ _).1 hf
      refine ⟨fun _ => ⟨a, ha, ?_⟩, fun _ => rfl⟩
      unfold addressKept at hk
      cases ht : a.addressLine1.trim with
      | none => rfl
      | some _ => rw [ht] at hk; cases hk
    | some r =>
      refine ⟨fun h => (by cases h), ?_⟩
      rintro ⟨a, ha, ht⟩
      have : filterThrowing addressKept formData.addresses = none :=
        (filterThrowing_eq_none _ _).2 ⟨a, ha, by simp [addressKept, ht]⟩
      rw [this] at hf
      cases hf
  · intro data hdata
    unfold cleanedData at hdata
    cases hf : filterThrowing addressKept formData.addresses with
    | none => rw [hf] at hdata; cases hdata
    | some r =>
      rw [hf] at hdata
      simp only [Option.some.injEq] at hdata
      subst hdata
      refine ⟨?_, ?_, rfl, rfl, rfl, rfl⟩
      · apply List.filter_congr
        intro m _
        cases hm : trim m <;> simp
      · have hr := filterThrowing_eq_some _ _ _ hf
        have hall : ∀ a ∈ formData.addresses, ∃ t, a.addressLine1.trim = some t := by
          intro a ha
          cases ht : a.addressLine1.trim with
          | some t => exact ⟨t, rfl⟩
          | none =>
            have : filterThrowing addressKept formData.addresses = none :=
              (filterThrowing_eq_none _ _).2 ⟨a, ha, by simp [addressKept, ht]⟩
            rw [this] at hf
            cases hf
        show r = _
        rw [hr]
        apply List.filter_congr
        intro a ha
        obtain ⟨t, ht⟩ := hall a ha
        simp only [addressKept, ht]
        by_cases h1 : t = [] <;> by_cases h2 : a.cityId = JsValue.string [] <;>
          by_cases h3 : a.countryId = JsValue.string [] <;> simp [h1, h2, h3]

/-- What a valid submission does.  When building `cleanedData` throws it makes no service
call, logs and alerts.  Otherwise it makes one service call carrying `cleanedData`: an update
call for the id of the supplied record when that id is not 0, a create call when no record is
supplied or its id is 0; and it calls `onSave` exactly when the call succeeds. -/
theorem handleSubmit_calls (customer : Option Customer) (requestOk : Bool) (st : FormState)
    (h : trim st.formData.name ≠ [] ∧ trim st.formData.nicNumber ≠ [] ∧
      trim st.formData.dateOfBirth ≠ []) :
    (cleanedData st.formData = none →
      (handleSubmit customer requestOk st).2 =
        [Effect.preventDefault, Effect.consoleError "Error saving customer:",
          Effect.alert "Failed to save customer. Please try again."]) ∧
    (∀ data, cleanedData st.formData = some data →
      (∀ c, customer = some c → c.id ≠ 0 →
        (handleSubmit customer requestOk st).2.filter Effect.isCall =
          [Effect.updateCustomer c.id data]) ∧
      ((customer = none ∨ ∃ c, customer = some c ∧ c.id = 0) →
        (handleSubmit customer requestOk st).2.filter Effect.isCall =
          [Effect.createCustomer data]) ∧
      (Effect.onSave ∈ (handleSubmit customer requestOk st).2 ↔ requestOk = true)) := by
  have hv := validateForm_valid st h
  have hf : (validateForm st).1.formData = st.formData := rfl
  refine ⟨fun hnone => by simp [handleSubmit, hv, hf, hnone], ?_⟩
  intro data hdata
  have hcreate : (customer = none ∨ ∃ c, customer = some c ∧ c.id = 0) →
      (handleSubmit customer requestOk st).2 =
        Effect.preventDefault :: (if requestOk then
          [Effect.createCustomer data, Effect.alert "Customer created successfully!",
            Effect.onSave]
        else
          [Effect.createCustomer data, Effect.consoleError "Error creating customer:",
            Effect.consoleError "Error saving customer:",
            Effect.alert "Failed to save customer. Please try again."]) := by
    intro hc
    rcases hc with rfl | ⟨c, rfl, hc0⟩
    · simp [handleSubmit, hv, hf, hdata]
    · simp [handleSubmit, hv, hf, hdata, hc0]
  have hupdate : ∀ c, customer = some c → c.id ≠ 0 →
      (handleSubmit customer requestOk st).2 =
        Effect.preventDefault :: (if requestOk then
          [Effect.updateCustomer c.id data, Effect.alert "Customer updated successfully!",
            Effect.onSave]
        else
          [Effect.updateCustomer c.id data, Effect.consoleError "Error updating customer:",
            Effect.consoleError "Error saving customer:",
            Effect.alert "Failed to save customer. Please try again."]) := by
    intro c hc hc0
    subst hc
    simp [handleSubmit, hv, hf, hdata, hc0]
  have hcases : (customer = none ∨ ∃ c, customer = some c ∧ c.id = 0) ∨
      ∃ c, customer = some c ∧ c.id ≠ 0 := by
    cases customer with
    | none => exact Or.inl (Or.inl rfl)
    | some c =>
      by_cases hc0 : c.id = 0
      · exact Or.inl (Or.inr ⟨c, rfl, hc0⟩)
      · exact Or.inr ⟨c, rfl, hc0⟩
  refine ⟨?_, ?_, ?_⟩
  · intro c hc hc0
    rw [hupdate c hc hc0]
    cases requestOk <;> simp [Effect.isCall]
  · intro hc
    rw [hcreate hc]
    cases requestOk <;> simp [Effect.isCall]
  · rcases hcases with hc | ⟨c, hc, hc0⟩
    · rw [hcreate hc]
      cases requestOk <;> simp
    · rw [hupdate c hc hc0]
      cases requestOk <;> simp

/-- C10, the code at the failing inputs.  The draft seeded from `sampleDan` is valid and its
only address is `blankServerAddress`: the first line is empty and no city and no country is
set, `cityId` and `countryId` being absent.  The update call of the submission still carries
that address, whereas the empty slot that the editor itself makes is left out of the data
of a create call.  For the draft seeded from `sampleEve`, whose address has `null` for its
first line, building the data throws, so no data is handed to any call. -/
theorem handleSubmit_keeps_blank_server_address :
    (trim (seedDraft (some sampleDan) initialFormState).formData.name ≠ [] ∧
      trim (seedDraft (some sampleDan) initialFormState).formData.nicNumber ≠ [] ∧
      trim (seedDraft (some sampleDan) initialFormState).formData.dateOfBirth ≠ []) ∧
    (seedDraft (some sampleDan) initialFormState).formData.addresses = [blankServerAddress] ∧
    (blankServerAddress.addressLine1.trim = some [] ∧
      blankServerAddress.cityId = JsValue.undefined ∧
      blankServerAddress.countryId = JsValue.undefined) ∧
    (handleSubmit (some sampleDan) true (seedDraft (some sampleDan) initialFormState)).2 =
      [Effect.preventDefault,
        Effect.updateCustomer 4
          { name := str "Dan", nicNumber := str "881234567V",
            dateOfBirth := str "1988-07-14", mobileNumbers := [str "0712345678"],
            addresses := [blankServerAddress], familyMemberIds := [] },
        Effect.alert "Customer updated successfully!", Effect.onSave] ∧
    (handleSubmit none true
      { initialFormState with
        formData := { (seedDraft (some sampleDan) initialFormState).formData with
          addresses := [emptyAddress] } }).2 =
      [Effect.preventDefault,
        Effect.createCustomer
          { name := str "Dan", nicNumber := str "881234567V",
            dateOfBirth := str "1988-07-14", mobileNumbers := [str "0712345678"],
            addresses := [], familyMemberIds := [] },
        Effect.alert "Customer created successfully!", Effect.onSave] ∧
    cleanedData (seedDraft (some sampleEve) initialFormState).formData = none := by
  refine ⟨by decide, rfl, ⟨by decide, rfl, rfl⟩, by decide, by decide, by decide⟩

/-- C15, the code at the failing inputs.  The record `sampleZero` carries the identifier 0.
The editor treats it as the record being edited: the draft is seeded from it and it is left
out of the roster of selectable family members.  Yet the only service call of the valid
submission is a create call, not an update call for the identifier 0.  For the valid draft
seeded from `sampleEve`, whose address has `null` for its first line, building the data
throws inside `try`: the submission makes no service call at all, and does not call
`onSave`. -/
theorem handleSubmit_zero_id_creates :
    sampleZero.id = 0 ∧
    (seedDraft (some sampleZero) initialFormState).formData.name = sampleZero.name ∧
    ((fetchAllCustomers (some sampleZero) (some [sampleZero, sampleBob])
      initialFormState).allCustomers.map (fun c => c.id) = [1]) ∧
    (trim (seedDraft (some sampleZero) initialFormState).formData.name ≠ [] ∧
      trim (seedDraft (some sampleZero) initialFormState).formData.nicNumber ≠ [] ∧
      trim (seedDraft (some sampleZero) initialFormState).formData.dateOfBirth ≠ []) ∧
    (handleSubmit (some sampleZero) true (seedDraft (some sampleZero) initialFormState)).2 =
      [Effect.preventDefault,
        Effect.createCustomer
          { name := str "Carol", nicNumber := str "781234567V",
            dateOfBirth := str "1978-11-23", mobileNumbers := [str "1800FLOWERS"],
            addresses := [], familyMemberIds := [] },
        Effect.alert "Customer created successfully!", Effect.onSave] ∧
    (∀ id data, Effect.updateCustomer id data ∉
      (handleSubmit (some sampleZero) true (seedDraft (some sampleZero) initialFormState)).2) ∧
    (trim (seedDraft (some sampleEve) initialFormState).formData.name ≠ [] ∧
      trim (seedDraft (some sampleEve) initialFormState).formData.nicNumber ≠ [] ∧
      trim (seedDraft (some sampleEve) initialFormState).formData.dateOfBirth ≠ []) ∧
    (handleSubmit (some sampleEve) true (seedDraft (some sampleEve) initialFormState)).2 =
      [Effect.preventDefault, Effect.consoleError "Error saving customer:",
        Effect.alert "Failed to save customer. Please try again."] ∧
    (handleSubmit (some sampleEve) true
      (seedDraft (some sampleEve) initialFormState)).2.filter Effect.isCall = [] := by
  have hzero : (handleSubmit (some sampleZero) true
      (seedDraft (some sampleZero) initialFormState)).2 =
      [Effect.preventDefault,
        Effect.createCustomer
          { name := str "Carol", nicNumber := str "781234567V",
            dateOfBirth := str "1978-11-23", mobileNumbers := [str "1800FLOWERS"],
            addresses := [], familyMemberIds := [] },
        Effect.alert "Customer created successfully!", Effect.onSave] := by
    decide
  refine ⟨rfl, rfl, rfl, by decide, hzero, ?_, by decide, by decide, by decide⟩
  intro id data hmem
  rw [hzero] at hmem
  simp at hmem

end CustomerManagement
